import Mathlib

/-!
Shallow embedding of `src/import_mocha_track.py` (Import Mocha Track, a Flame
plugin).  The script reads four Mocha tracker `.ascii` files, validates their
names, parses per-frame corner coordinates and patches the text of a saved
node setup (a line-oriented format) before asking the host to reload it.

Modelling conventions:
* a setup file is a `List String` of its lines (each line keeps its `"\n"`);
* Python floats are modelled as `ℚ` (the script only does exact halves and
  subtractions; no claim depends on IEEE rounding); Python's float-to-string
  is modelled by `pyShowFloat` (digits, sign and a decimal point — the exact
  digit count is irrelevant to every claim and to control flow);
* Python exceptions are modelled by `Option`/`Except`: an operation that
  would raise returns `none`/`.error`;
* `list[i] = v`, `list.insert`, `list.pop` follow Python semantics
  (negative-index wrap, out-of-range errors, clamping `insert`);
* host-side calls (`create_node`, `save_node_setup`, `load_node_setup`,
  file IO) are modelled as an event trace, in the statement order of the
  source.
-/

deriving instance DecidableEq for Except

namespace ImportMochaTrack

/-- Keyframe record parsed from a Mocha line: (frame, x, y). -/
abbrev KF := Int × ℚ × ℚ

/-! ### Generic list and string helpers (Python semantics) -/

/-- Substring test on char lists: Python's `item in line`. -/
def listContainsSub (needle : List Char) : List Char → Bool
  | [] => needle.isEmpty
  | c :: t => needle.isPrefixOf (c :: t) || listContainsSub needle t

/-- Python's `item in line` for strings. -/
def lineContains (line item : String) : Bool :=
  listContainsSub item.toList line.toList

/-- Suffix test: Python's `s.endswith(suf)`. -/
def strEndsWith (s suf : String) : Bool :=
  suf.toList.reverse.isPrefixOf s.toList.reverse

/-- Split a char list at every occurrence of `sep` (Python `str.split(sep)`):
`splitOnChar sep []` is `[[]]`, matching `''.split(sep) == ['']`. -/
def splitOnChar (sep : Char) : List Char → List (List Char)
  | [] => [[]]
  | c :: t =>
    let r := splitOnChar sep t
    if c == sep then [] :: r
    else
      match r with
      | h :: t2 => (c :: h) :: t2
      | [] => [[c]]

/-- Whitespace split with an accumulator (Python `str.split()` with no
argument: runs of whitespace separate tokens, empties are dropped). -/
def splitWsAux (acc : List Char) : List Char → List (List Char)
  | [] => if acc.isEmpty then [] else [acc.reverse]
  | c :: t =>
    if c.isWhitespace then
      if acc.isEmpty then splitWsAux [] t else acc.reverse :: splitWsAux [] t
    else splitWsAux (c :: acc) t

/-- Python `s.split()`. -/
def pySplitWs (s : String) : List String :=
  (splitWsAux [] s.toList).map (fun l => String.mk l)

/-- Python `enumerate(xs, start)`. -/
def enumFrom (i : Nat) : List α → List (Nat × α)
  | [] => []
  | x :: t => (i, x) :: enumFrom (i + 1) t

/-- Flat map written out (avoids version drift of `List.flatMap`). -/
def concatMap (f : α → List β) : List α → List β
  | [] => []
  | x :: t => f x ++ concatMap f t

/-- Single-pass splice: `pySplice l s ins` inserts `ins` before index `s`,
clamping at the end of the list like Python's `list.insert`. -/
def pySplice : List α → Nat → List α → List α
  | l, 0, ins => ins ++ l
  | [], _ + 1, ins => ins
  | x :: t, s + 1, ins => x :: pySplice t s ins

/-- Python `l.insert(i, v)` for a nonnegative index (clamps past the end). -/
def pyInsert (l : List α) (i : Nat) (v : α) : List α :=
  pySplice l i [v]

/-- The `for line_num, line_val in enumerate(lines, start): l.insert(...)`
idiom: insert the lines one by one at consecutive indices. -/
def pyInsertLoop : List α → Nat → List α → List α
  | l, _, [] => l
  | l, s, x :: xs => pyInsertLoop (pyInsert l s x) (s + 1) xs

/-- In-range list update helper. -/
def pySetAux (v : α) : List α → Nat → Option (List α)
  | [], _ => none
  | _ :: t, 0 => some (v :: t)
  | x :: t, n + 1 => (pySetAux v t n).map (fun r => x :: r)

/-- Python `l[i] = v` with an `Int` index: negative indices wrap from the
end, out-of-range raises (`none`). -/
def pySet (l : List α) (i : Int) (v : α) : Option (List α) :=
  if i < 0 then
    if 0 ≤ i + l.length then pySetAux v l (i + l.length).toNat else none
  else pySetAux v l i.toNat

/-- Python `l[i]` with an `Int` index: negative indices wrap from the end,
out-of-range raises (`none`). -/
def pyGet (l : List α) (i : Int) : Option α :=
  if i < 0 then
    if 0 ≤ i + l.length then l[(i + l.length).toNat]? else none
  else l[i.toNat]?

/-- Python `l.pop(i)` for an in-range nonnegative index (result list only). -/
def pyPopAt (l : List α) (i : Nat) : Option (List α) :=
  if i < l.length then some (l.eraseIdx i) else none

/-- Total line accessor used to state "line `i` of the setup". -/
def lineAt (l : List String) (i : Nat) : String :=
  (l[i]?).getD ""

/-- Python integer floor division `//`. -/
def pyFloorDiv (a b : Int) : Int := Int.fdiv a b

/-- Python `int(float)`: truncation toward zero (`int(-2.5) = -2`). -/
def pyTrunc (q : ℚ) : Int := q.num.tdiv q.den

/-! ### Numeric string conversions -/

/-- Value of a (possibly empty) digit string. -/
def digitsVal (l : List Char) : Nat :=
  l.foldl (fun a c => a * 10 + (c.toNat - 48)) 0

/-- Fractional value of a digit string read after a decimal point. -/
def fracVal (l : List Char) : ℚ :=
  l.foldr (fun c acc => (((c.toNat : ℚ) - 48) + acc) / 10) 0

/-- Python `int(s)` on a char list: optional sign then at least one digit
(the script only feeds it already-stripped tokens). -/
def parsePyIntChars (cs0 : List Char) : Option Int :=
  let p := fun (sgn : Int) (cs : List Char) =>
    if cs.isEmpty || !cs.all Char.isDigit then none
    else some (sgn * (digitsVal cs : Int))
  match cs0 with
  | '-' :: t => p (-1) t
  | '+' :: t => p 1 t
  | _ => p 1 cs0

/-- Python `int(s)`. -/
def parsePyInt (s : String) : Option Int :=
  parsePyIntChars s.trim.toList

/-- Python `float(s)` on a char list, restricted to the decimal forms the
Mocha export uses: optional sign, digits, optional point and fraction
(exponent forms are out of scope for this model). -/
def parsePyFloatChars (cs0 : List Char) : Option ℚ :=
  let body := fun (sgn : ℚ) (cs : List Char) =>
    let intDs := cs.takeWhile Char.isDigit
    let rest := cs.drop intDs.length
    match rest with
    | [] => if intDs.isEmpty then none else some (sgn * (digitsVal intDs : ℚ))
    | '.' :: fracCs =>
      if fracCs.all Char.isDigit then
        if intDs.isEmpty && fracCs.isEmpty then none
        else some (sgn * ((digitsVal intDs : ℚ) + fracVal fracCs))
      else none
    | _ => none
  match cs0 with
  | '-' :: t => body (-1) t
  | '+' :: t => body 1 t
  | _ => body 1 cs0

/-- Python `float(s)`. -/
def parsePyFloat (s : String) : Option ℚ :=
  parsePyFloatChars s.trim.toList

/-- Fractional digits of a rational in `[0, 1)`, fuel-bounded. -/
def decFrac : Nat → ℚ → String
  | 0, _ => ""
  | n + 1, q =>
    let t := q * 10
    let d := (Int.floor t).toNat
    toString d ++ decFrac n (t - (d : ℚ))

/-- Rendering of a nonnegative rational as a decimal string. -/
def pyShowNonneg (q : ℚ) : String :=
  toString (Int.floor q) ++ "." ++ decFrac 6 (q - (Int.floor q : ℚ))

/-- Model of Python's float-to-string used in f-string interpolation.  The
script never searches for numeric text, so only the shape matters. -/
def pyShowFloat (q : ℚ) : String :=
  if q < 0 then "-" ++ pyShowNonneg (-q) else pyShowNonneg q

/-- Python `str(int)` as used for frames, key indices and sizes. -/
def pyShowInt (i : Int) : String := toString i

/-! ### `find_line` and `find_line_after` (source lines 650-667) -/

/-- `find_line(item, setup)`: index of the first line containing `item` as a
substring, `None` when absent. -/
def find_line (item : String) : List String → Option Nat
  | [] => none
  | l :: ls =>
    if lineContains l item then some 0
    else (find_line item ls).map (fun n => n + 1)

/-- Scan of `find_line_after` carrying the absolute index of the head. -/
def findLineAfterAux (item : String) (n : Nat) : Nat → List String → Option Nat
  | _, [] => none
  | i, l :: ls =>
    if n < i && lineContains l item then some i
    else findLineAfterAux item n (i + 1) ls

/-- `find_line_after(item, item_line_num, setup)`: index of the first line
strictly after index `n` containing `item`, `None` when absent. -/
def find_line_after (item : String) (n : Nat) (setup : List String) : Option Nat :=
  findLineAfterAux item n 0 setup

/-! ### Validation of the selected tracker files (source lines 553-610) -/

/-- Exception kinds the script can raise while reading the Mocha files.
Messages are not modelled; `parseFailure` stands for the `ValueError` or
`IndexError` that `frame_to_tuple` raises on a malformed data line. -/
inductive MErr
  | valueError
  | typeError
  | parseFailure
deriving DecidableEq

/-- Python `i.split('/')[-1]`: the filename component of a path. -/
def pathFilename (p : String) : String :=
  String.mk ((splitOnChar '/' p.toList).getLastD [])

/-- Does the char list start with `_Tracker` followed by a digit 1-4?
(the regular expression `_Tracker[1-4]` anchored at the head). -/
def trackerPatAt (l : List Char) : Bool :=
  "_Tracker".toList.isPrefixOf l &&
    (match l.drop 8 with
     | d :: _ => d == '1' || d == '2' || d == '3' || d == '4'
     | [] => false)

/-- Leftmost-match search of `_Tracker[1-4]`, as `re.search` does. -/
def trackerSearchAux (i : Nat) : List Char → Option Nat
  | [] => none
  | c :: t => if trackerPatAt (c :: t) then some i else trackerSearchAux (i + 1) t

/-- `tracker_regex.search(file).start()` on a filename, `none` on no match. -/
def trackerMatchStart (s : String) : Option Nat :=
  trackerSearchAux 0 s.toList

/-- The Mocha track name of a filename: the prefix before the leftmost
`_Tracker[1-4]` occurrence (`file[:mocha_suffix.start()]`). -/
def filenameTrackPart (name : String) : Option String :=
  (trackerMatchStart name).map (fun k => String.mk (name.toList.take k))

/-- Track-name prefix of a selected file path (regex runs on the filename). -/
def pathTrackPart (p : String) : Option String :=
  filenameTrackPart (pathFilename p)

/-- Python `len(set(xs))`. -/
def pySetLen (xs : List String) : Nat := xs.dedup.length

/-- The filename scan of `parse_mocha_files`: for each filename, raise
`TypeError` when the regex does not match, otherwise append the prefix to
`mocha_names` and raise `ValueError` when the names so far are not all one;
on each success `track_name` becomes `mocha_names[0]`. -/
def validateLoop : List String → List String → String → Except MErr String
  | [], _, trackName => .ok trackName
  | nm :: rest, acc, trackName =>
    match trackerMatchStart nm with
    | none => .error .typeError
    | some k =>
      let name := String.mk (nm.toList.take k)
      let acc2 := acc ++ [name]
      if pySetLen acc2 ≠ 1 then .error .valueError
      else validateLoop rest acc2 (acc2.headD trackName)

/-- Validation phase of `parse_mocha_files`: exactly four files must be
selected, each filename must match `_Tracker[1-4]`, and all prefixes must
agree; the common prefix becomes `track_name`. -/
def validateMochaSelection (selectedFiles : List String) : Except MErr String :=
  if selectedFiles.length ≠ 4 then .error .valueError
  else validateLoop (selectedFiles.map pathFilename) [] ""

/-! ### Parsing the corner keyframes (source lines 612-648) -/

/-- Corner lists of the instance after `parse_mocha_files`. -/
structure Corners where
  lower_left : List KF
  lower_right : List KF
  upper_left : List KF
  upper_right : List KF
deriving DecidableEq

/-- Identifies one of the four corner lists. -/
inductive CornerId
  | UL
  | UR
  | LL
  | LR
deriving DecidableEq

/-- Accessor pairing each `CornerId` with its list in `Corners`. -/
def cornerField (cs : Corners) : CornerId → List KF
  | .UL => cs.upper_left
  | .UR => cs.upper_right
  | .LL => cs.lower_left
  | .LR => cs.lower_right

/-- Tokenizer following the claim's words "colon/whitespace-separated
field" (claim C2): colons and whitespace both separate fields and empty
tokens are dropped.  Defined only to compare that reading with the code's
`frame_to_tuple`, which instead removes all whitespace and splits on colons
and commas. -/
def specWsColonFields (line : String) : List String :=
  (splitWsAux []
      (line.toList.map (fun c => if c == ':' then ' ' else c))).map
    (fun l => String.mk l)

/-- The fields of a Mocha data line: all whitespace removed, colons turned
into commas, then split on commas (`frame_to_tuple`'s tokenization). -/
def mochaFields (line : String) : List (List Char) :=
  splitOnChar ','
    ((line.toList.filter (fun c => !c.isWhitespace)).map
      (fun c => if c == ':' then ',' else c))

/-- `frame_to_tuple(file_line)`: `(int(float(f0)) + sf_offset, float(f1),
float(f2))` over the comma/colon fields; `none` models the `IndexError` or
`ValueError` raised on a malformed line. -/
def frame_to_tuple (sfOffset : Int) (line : String) : Option KF := do
  let fields := mochaFields line
  let f0 ← fields[0]?
  let frameFloat ← parsePyFloatChars f0
  let f1 ← fields[1]?
  let x ← parsePyFloatChars f1
  let f2 ← fields[2]?
  let y ← parsePyFloatChars f2
  some (pyTrunc frameFloat + sfOffset, x, y)

/-- Which corner list a selected file feeds: `l[0:-6]` (the path with its
last six characters removed) must end with `TrackerN`. -/
def routeCorner (path : String) : Option CornerId :=
  let stem := String.mk (path.toList.take (path.toList.length - 6))
  if strEndsWith stem "Tracker1" then some .UL
  else if strEndsWith stem "Tracker2" then some .UR
  else if strEndsWith stem "Tracker3" then some .LL
  else if strEndsWith stem "Tracker4" then some .LR
  else none

/-- Append a parsed keyframe to the corner list selected by the route (a
file whose stem matches no `TrackerN` feeds no list, like the if/elif
chain). -/
def appendCorner (cs : Corners) (r : Option CornerId) (t : KF) : Corners :=
  match r with
  | some .UL => { cs with upper_left := cs.upper_left ++ [t] }
  | some .UR => { cs with upper_right := cs.upper_right ++ [t] }
  | some .LL => { cs with lower_left := cs.lower_left ++ [t] }
  | some .LR => { cs with lower_right := cs.lower_right ++ [t] }
  | none => cs

/-- Per-file line loop of `parse_mocha_files`. -/
def parseFileLines (sfOffset : Int) (r : Option CornerId) :
    List String → Corners → Except MErr Corners
  | [], cs => .ok cs
  | line :: rest, cs =>
    match frame_to_tuple sfOffset line with
    | none => .error .parseFailure
    | some t => parseFileLines sfOffset r rest (appendCorner cs r t)

/-- Outer file loop of `parse_mocha_files`. -/
def parseFilesLoop (sfOffset : Int) :
    List (String × List String) → Corners → Except MErr Corners
  | [], cs => .ok cs
  | (path, lines) :: rest, cs =>
    match parseFileLines sfOffset (routeCorner path) lines cs with
    | .error e => .error e
    | .ok cs2 => parseFilesLoop sfOffset rest cs2

/-- `parse_mocha_files`, with the file browser replaced by the selected
`(path, lines)` pairs and `flame.batch.start_frame` passed in: validates the
selection, then fills the four corner lists; returns `track_name` and the
`self.corners` dictionary contents. -/
def parse_mocha_files (startFrame : Int) (files : List (String × List String)) :
    Except MErr (String × Corners) :=
  match validateMochaSelection (files.map (fun f => f.1)) with
  | .error e => .error e
  | .ok trackName =>
    match parseFilesLoop (startFrame - 1) files ⟨[], [], [], []⟩ with
    | .error e => .error e
    | .ok corners => .ok (trackName, corners)

/-! ### `key_frame`, `add_animation` (source lines 343-361, 526-551) -/

/-- `key_frame(index, frame, value, value_lock, curve_order)`: the setup
lines of one key.  Values keep Python's dynamic typing through the rendering
function `showV` (`pyShowFloat` for floats, `pyShowInt` for ints). -/
def key_frame (showV : α → String) (index : Nat) (frame : Int) (value : α)
    (value_lock : Bool) (curve_order : String) : List String :=
  let kf_lines :=
    ["\t\t\tKey " ++ toString index ++ "\n",
     "\t\t\t\tFrame " ++ toString frame ++ "\n",
     "\t\t\t\tValue " ++ showV value ++ "\n",
     "\t\t\t\tRHandle_dX 0.25\n",
     "\t\t\t\tRHandle_dY 0\n",
     "\t\t\t\tLHandle_dX -0.25\n",
     "\t\t\t\tLHandle_dY 0\n",
     "\t\t\t\tCurveMode hermite\n",
     "\t\t\t\tCurveOrder " ++ curve_order ++ "\n",
     "\t\t\t\tEnd\n"]
  if value_lock then pyInsert kf_lines 7 "\t\t\t\tValueLock yes\n" else kf_lines

/-- `extract_dimension(corner, dimension)`: the `(frame, x)` or `(frame, y)`
projection of a corner list; any other dimension returns `None`. -/
def extract_dimension (corner : List KF) (dimension : String) :
    Option (List (Int × ℚ)) :=
  if dimension = "x" then some (corner.map (fun p => (p.1, p.2.1)))
  else if dimension = "y" then some (corner.map (fun p => (p.1, p.2.2)))
  else none

/-- The `Size`/`KeyVersion` header and the key blocks `add_animation`
inserts after the channel's `Value` line. -/
def animLines (showV : α → String) (animation : List (Int × α))
    (value_lock : Bool) (curve_order : String) : List String :=
  ["\t\t\tSize " ++ toString animation.length ++ "\n",
   "\t\t\tKeyVersion 2\n"]
  ++ concatMap (fun p => key_frame showV p.1 p.2.1 p.2.2 value_lock curve_order)
       (enumFrom 0 animation)

/-- `add_animation(node_name, setup, channel, animation, ...)`: find the
channel after the node's name line, overwrite the `Extrapolation` and
`Value` lines, and insert the key blocks line by line at `channel_line+3`. -/
def add_animation (showV : α → String) (node_name : String) (setup : List String)
    (channel : String) (animation : List (Int × α)) (value_lock : Bool)
    (extrapolation curve_order : String) (value_index : Int) :
    Option (List String) := do
  let node_line ← find_line node_name setup
  let channel_line ← find_line_after channel node_line setup
  let s1 ← pySet setup ((channel_line : Int) + 1)
    ("\t\t\tExtrapolation " ++ extrapolation ++ "\n")
  let v ← pyGet animation value_index
  let s2 ← pySet s1 ((channel_line : Int) + 2) ("\t\t\tValue " ++ showV v.2 ++ "\n")
  some (pyInsertLoop s2 (channel_line + 3) (animLines showV animation value_lock curve_order))

/-! ### `add_tracker` (source lines 371-524) -/

/-- `[k[2:] for k in key_frame(...)]`: key lines dedented by two chars. -/
def ddLines (ls : List String) : List String :=
  ls.map (fun s => s.drop 2)

/-- Everything `add_tracker` emits before the `shift/x` keys, in source
order: the attachment header plus the `ref/x`, `ref/y`, `ref/width`,
`ref/height`, `ref/dx`, `ref/dy`, `track/*` channels and the `shift/x`
channel header. -/
def trackerPre (tracker : String) (corner : List KF) (c0 : KF)
    (width height : Int) : List String :=
  ["\tAttachement Tracker\n",
   "\tAttachementName \t\"" ++ tracker ++ "\"\n",
   "\tActive yes\n",
   "\tFixedRef no\n",
   "\tFixedX no\n",
   "\tFixedY no\n",
   "\tTolerance 100\n",
   "\tColour\n",
   "\t\tRed 100\n",
   "\t\tGreen 0\n",
   "\t\tBlue 0\n",
   "\tOffsetsX 0\n",
   "\tOffsetsY 0\n",
   "\tFirstRefFrame " ++ toString c0.1 ++ "\n",
   "\tAnim\n",
   "Channel ref/x\n",
   "\tExtrapolation constant\n",
   "\tValue " ++ pyShowFloat c0.2.1 ++ "\n",
   "\tSize 1\n",
   "\tKeyVersion 2\n"]
  ++ ddLines (key_frame pyShowFloat 0 c0.1 c0.2.1 false "linear")
  ++ ["\tColour 85 85 85\n",
      "\tEnd\n",
      "Channel ref/y\n",
      "\tExtrapolation constant\n",
      "\tValue " ++ pyShowFloat c0.2.2 ++ "\n",
      "\tSize 1\n",
      "\tKeyVersion 2\n"]
  ++ ddLines (key_frame pyShowFloat 0 c0.1 c0.2.2 false "linear")
  ++ ["\tColour 85 85 85\n",
      "\tEnd\n",
      "Channel ref/width\n",
      "\tExtrapolation constant\n",
      "\tValue 64\n",
      "\tColour 85 85 85\n",
      "\tEnd\n",
      "Channel ref/height\n",
      "\tExtrapolation constant\n",
      "\tValue 64\n",
      "\tColour 85 85 85\n",
      "\tEnd\n",
      "Channel ref/dx\n",
      "\tExtrapolation constant\n",
      "\tValue 0\n",
      "\tSize 1\n",
      "\tKeyVersion 2\n"]
  ++ ddLines (key_frame pyShowInt 0 c0.1 0 false "linear")
  ++ ["\tColour 85 85 85\n",
      "\tEnd\n",
      "Channel ref/dy\n",
      "\tExtrapolation constant\n",
      "\tValue 0\n",
      "\tSize 1\n",
      "\tKeyVersion 2\n"]
  ++ ddLines (key_frame pyShowInt 0 c0.1 0 false "linear")
  ++ ["\tColour 85 85 85\n",
      "\tEnd\n",
      "Channel track/x\n",
      "\tExtrapolation linear\n",
      "\tValue " ++ toString (pyFloorDiv width 2) ++ "\n",
      "\tColour 85 85 85\n",
      "\tEnd\n",
      "Channel track/y\n",
      "\tExtrapolation linear\n",
      "\tValue " ++ toString (pyFloorDiv height 2) ++ "\n",
      "\tColour 85 85 85\n",
      "\tEnd\n",
      "Channel track/width\n",
      "\tExtrapolation constant\n",
      "\tValue 96\n",
      "\tColour 85 85 85\n",
      "\tEnd\n",
      "Channel track/height\n",
      "\tExtrapolation constant\n",
      "\tValue 96\n",
      "\tColour 85 85 85\n",
      "\tEnd\n",
      "Channel shift/x\n",
      "\tExtrapolation linear\n",
      "\tValue 0\n",
      "\tSize " ++ toString corner.length ++ "\n",
      "\tKeyVersion 2\n"]

/-- The `shift/x` keys: one key per corner keyframe, value
`corner[0][1] - f[1]`. -/
def trackerShiftXKeys (corner : List KF) (c0 : KF) : List String :=
  concatMap
    (fun p => ddLines (key_frame pyShowFloat p.1 p.2.1 (c0.2.1 - p.2.2.1) false "linear"))
    (enumFrom 0 corner)

/-- The `shift/y` channel header between the two key runs. -/
def trackerShiftYHeader (n : Nat) : List String :=
  ["\tColour 255 0 0\n",
   "\tEnd\n",
   "Channel shift/y\n",
   "\tExtrapolation linear\n",
   "\tValue 0\n",
   "\tSize " ++ toString n ++ "\n",
   "\tKeyVersion 2\n"]

/-- The `shift/y` keys: one key per corner keyframe, value
`corner[0][2] - f[2]`. -/
def trackerShiftYKeys (corner : List KF) (c0 : KF) : List String :=
  concatMap
    (fun p => ddLines (key_frame pyShowFloat p.1 p.2.1 (c0.2.2 - p.2.2.2) false "linear"))
    (enumFrom 0 corner)

/-- The closing `offset/x`, `offset/y` channels and end markers. -/
def trackerAttachEnd : List String :=
  ["\tColour 255 0 0\n",
   "\tEnd\n",
   "Channel offset/x\n",
   "\tExtrapolation linear\n",
   "\tValue 0\n",
   "\tColour 85 85 85\n",
   "\tEnd\n",
   "Channel offset/y\n",
   "\tExtrapolation linear\n",
   "\tValue 0\n",
   "\tColour 85 85 85\n",
   "\tEnd\n",
   "ChannelEnd\n",
   "AttachementEnd\n"]

/-- `add_tracker(tracker, corner, width, height)`: all lines of one tracker
attachment; `corner[0]` raises on an empty corner (`none`). -/
def add_tracker (tracker : String) (corner : List KF) (width height : Int) :
    Option (List String) :=
  match corner with
  | [] => none
  | c0 :: _ =>
    some (trackerPre tracker corner c0 width height
      ++ trackerShiftXKeys corner c0
      ++ trackerShiftYHeader corner.length
      ++ trackerShiftYKeys corner c0
      ++ trackerAttachEnd)

/-! ### `name_import` (source lines 669-682) -/

/-- `name_import(name)`: first free name among `name`, `track_name1`,
`track_name2`, ...  The fuel (`existing.length + 1`) always suffices: the
candidates are pairwise distinct, so one of them is not taken. -/
def nameImportAux (trackName : String) (existingNodes : List String) :
    Nat → String → Nat → String
  | fuel, name, objectNum =>
    if existingNodes.contains name then
      match fuel with
      | 0 => name
      | f + 1 =>
        nameImportAux trackName existingNodes f
          (trackName ++ toString (objectNum + 1)) (objectNum + 1)
    else name

/-- `name_import(track_name)` as called by both import operations. -/
def name_import (trackName : String) (existingNodes : List String) : String :=
  nameImportAux trackName existingNodes (existingNodes.length + 1) trackName 0

/-! ### `import_perspective_grid` text edits (source lines 83-159) -/

/-- `int(contents[i].split()[1])`: the resolution read from a setup line. -/
def readIntAt (contents : List String) (i : Nat) : Option Int := do
  let line ← contents[i]?
  let tok ← (pySplitWs line)[1]?
  parsePyInt tok

/-- The 2D patch (source lines 119-121): replace the first `TransformIs3D`
line after the new grid's name line by `\t\tTransformIs3D no\n`. -/
def patchTransformIs3D (node_name : String) (contents : List String) :
    Option (List String) := do
  let grid_line ← find_line node_name contents
  let grid_3d_line ← find_line_after "TransformIs3D" grid_line contents
  pySet contents (grid_3d_line : Int) "\t\tTransformIs3D no\n"

/-- The `for key in self.corners` loop of `import_perspective_grid`:
translate each corner to center-origin coordinates and add the x and y
animations. -/
def perspCornerLoop (node_name : String) (hOffset vOffset : Int) :
    List String → List (String × List KF) → Option (List String)
  | cs, [] => some cs
  | cs, (key, corner) :: rest => do
    let translation := corner.map
      (fun p => (p.1, p.2.1 - (hOffset : ℚ) + 1/2, p.2.2 - (vOffset : ℚ) + 1/2))
    let x ← extract_dimension translation "x"
    let y ← extract_dimension translation "y"
    let cs1 ← add_animation pyShowFloat node_name cs (key ++ "_corner/x") x
      false "linear" "linear" 0
    let cs2 ← add_animation pyShowFloat node_name cs1 (key ++ "_corner/y") y
      false "linear" "linear" 0
    perspCornerLoop node_name hOffset vOffset cs2 rest

/-- The corner loop as claim C3 reads it: the keyframes added to
`<corner>_corner/x` carry value `x - (width // 2) + 0.5` and those added to
`<corner>_corner/y` carry value `y - (height // 2) + 0.5`, `//` being
integer floor division.  Defined from the claim's words, to be compared
with `perspCornerLoop` (the code's form). -/
def claimPerspCornerLoop (node_name : String) (width height : Int) :
    List String → List (String × List KF) → Option (List String)
  | cs, [] => some cs
  | cs, (key, corner) :: rest => do
    let x := corner.map
      (fun p => (p.1, p.2.1 - ((pyFloorDiv width 2 : Int) : ℚ) + 1/2))
    let y := corner.map
      (fun p => (p.1, p.2.2 - ((pyFloorDiv height 2 : Int) : ℚ) + 1/2))
    let cs1 ← add_animation pyShowFloat node_name cs (key ++ "_corner/x") x
      false "linear" "linear" 0
    let cs2 ← add_animation pyShowFloat node_name cs1 (key ++ "_corner/y") y
      false "linear" "linear" 0
    claimPerspCornerLoop node_name width height cs2 rest

/-- Iteration order of `self.corners` (dict insertion order, lines 643-648). -/
def cornersList (cs : Corners) : List (String × List KF) :=
  [("lower_left", cs.lower_left), ("upper_left", cs.upper_left),
   ("lower_right", cs.lower_right), ("upper_right", cs.upper_right)]

/-- All text edits of `import_perspective_grid` between reading and writing
the setup file. -/
def importPerspectiveGridEdit (node_name : String) (contents : List String)
    (cs : Corners) : Option (List String) := do
  let width_line ← find_line "FrameWidth" contents
  let width ← readIntAt contents width_line
  let height_line ← find_line_after "FrameHeight" width_line contents
  let height ← readIntAt contents height_line
  let c1 ← patchTransformIs3D node_name contents
  perspCornerLoop node_name (pyFloorDiv width 2) (pyFloorDiv height 2) c1
    (cornersList cs)

/-! ### `import_bilinear_uvs` text edits (source lines 161-341) -/

/-- The bilinear patch (source lines 192-193): overwrite the line before the
first line containing the surface's name (Python `contents[name_line - 1]`,
so `name_line = 0` wraps to the last line). -/
def patchSurfaceBilinear (node_name : String) (contents : List String) :
    Option (Nat × List String) := do
  let name_line ← find_line node_name contents
  let c1 ← pySet contents ((name_line : Int) - 1) "Node SurfaceBilinear\n"
  some (name_line, c1)

/-- The four tracker attachments, in source order and with the source's
tracker names. -/
def bilinearTrackers (cs : Corners) (width height : Int) :
    Option (List String) := do
  let tracker_ll ← add_tracker "offset0_0" cs.lower_left width height
  let tracker_ul ← add_tracker "offset0_1" cs.upper_left width height
  let tracker_lr ← add_tracker "offset1_0" cs.lower_right width height
  let tracker_ur ← add_tracker "offset1_1" cs.upper_right width height
  some (tracker_ll ++ tracker_ul ++ tracker_lr ++ tracker_ur)

/-- Insert the attachment lines one past the first `IsSoftImported` line
after the surface's name line (source lines 206-216); returns the insertion
index and the new list. -/
def insertTrackerAttachments (contents : List String) (name_line : Nat)
    (attach : List String) : Option (Nat × List String) := do
  let isl ← find_line_after "IsSoftImported" name_line contents
  some (isl + 1, pyInsertLoop contents (isl + 1) attach)

/-- The `while 'End' not in contents[i]: pop` loop plus the final pop that
removes the empty `uv_track_vertices` channel; fuel-bounded (the fuel
`contents.length + 1` covers every terminating Python run, and the loop's
`IndexError` is `none`). -/
def popUntilEnd : Nat → List String → Nat → Option (List String)
  | 0, _, _ => none
  | fuel + 1, contents, i =>
    match contents[i]? with
    | none => none
    | some line =>
      if lineContains line "End" then some (contents.eraseIdx i)
      else popUntilEnd fuel (contents.eraseIdx i) i

/-- `channel_lines(corner)`: the empty animation channels created for one
corner of the surface. -/
def channel_lines (corner : String) : List String :=
  let horz_direction := if lineContains corner "left" then "right" else "left"
  let vert_direction := if lineContains corner "lower" then "up" else "down"
  let subchannel_names :=
    ["position/x", "position/y",
     "horz_tan_" ++ horz_direction ++ "/x", "horz_tan_" ++ horz_direction ++ "/y",
     "horz_tan_cont",
     "vert_tan_" ++ vert_direction ++ "/x", "vert_tan_" ++ vert_direction ++ "/y",
     "vert_tan_cont"]
  concatMap
    (fun subchannel =>
      let val : Nat := if lineContains subchannel "cont" then 2 else 0
      ["\t\tChannel uv_track_vertices/" ++ corner ++ "/" ++ subchannel ++ "\n",
       "\t\t\tExtrapolation constant\n",
       "\t\t\tValue " ++ toString val ++ "\n",
       "\t\t\tEnd\n"])
    subchannel_names

/-- The channels that keep Mocha's lower-left indexing (source line 290). -/
def original_path_channels : List String :=
  ["lower_left/position/x", "lower_left/position/y",
   "upper_left/position/x", "lower_right/position/y"]

/-- The `for ch_dimension in channel_names` loop: build the x and y
translations for one corner of the surface. -/
def chanLoopAux (width height : Int) (x y : List (Int × ℚ))
    (xt yt : List (Int × ℚ)) : List String → List (Int × ℚ) × List (Int × ℚ)
  | [] => (xt, yt)
  | ch :: rest =>
    if original_path_channels.contains ch then
      if strEndsWith ch "x" then
        chanLoopAux width height x y
          (xt ++ x.map (fun kf => (kf.1, kf.2 + 1/2))) yt rest
      else
        chanLoopAux width height x y xt
          (yt ++ y.map (fun kf => (kf.1, kf.2 + 1/2))) rest
    else
      if strEndsWith ch "x" then
        chanLoopAux width height x y
          (xt ++ x.map (fun kf => (kf.1, kf.2 - (width : ℚ) - 1/2))) yt rest
      else
        chanLoopAux width height x y xt
          (yt ++ y.map (fun kf => (kf.1, kf.2 - (height : ℚ) - 1/2))) rest

/-- The `for key in self.corners.keys()` loop of `import_bilinear_uvs`. -/
def bilinearCornerLoop (node_name : String) (width height : Int) :
    List String → List (String × List KF) → Option (List String)
  | cs, [] => some cs
  | cs, (key, corner) :: rest => do
    let x ← extract_dimension corner "x"
    let y ← extract_dimension corner "y"
    let p := chanLoopAux width height x y [] []
      [key ++ "/position/x", key ++ "/position/y"]
    let cs1 ← add_animation pyShowFloat node_name cs
      ("uv_track_vertices/" ++ key ++ "/position/x") p.1 false "constant" "linear" (-1)
    let cs2 ← add_animation pyShowFloat node_name cs1
      ("uv_track_vertices/" ++ key ++ "/position/y") p.2 false "constant" "linear" (-1)
    bilinearCornerLoop node_name width height cs2 rest

/-- All text edits of `import_bilinear_uvs` between reading and writing the
setup file.  (In the source the `IsSoftImported` search runs just before the
`add_tracker` calls; under `Option` both failure orders give `none`.) -/
def importBilinearEdit (node_name : String) (contents : List String)
    (cs : Corners) : Option (List String) := do
  let nameAndC1 ← patchSurfaceBilinear node_name contents
  let name_line := nameAndC1.1
  let c1 := nameAndC1.2
  let width_line ← find_line_after "ResWidth" name_line c1
  let width ← readIntAt c1 width_line
  let height_line ← find_line_after "ResHeight" width_line c1
  let height ← readIntAt c1 height_line
  let attach ← bilinearTrackers cs width height
  let ins ← insertTrackerAttachments c1 name_line attach
  let input_line := ins.1
  let c2 := ins.2
  let track_points_line ← find_line_after "NumUVTrackControlPoints" input_line c2
  let c3 ← pySet c2 (track_points_line : Int) "\t\tNumUVTrackControlPoints 4\n"
  let c4 := pyInsertLoop c3 (track_points_line + 1)
    ((List.range 4).map (fun n => "\t\tUVTrackControlPoint " ++ toString n ++ "\n"))
  let uvt_line := track_points_line + 1 + 3
  let shapes := (enumFrom 0 cs.lower_left).map (fun p => (p.2.1, (p.1 : Int)))
  let c5 ← add_animation pyShowInt node_name c4 "uv_track_shape" shapes
    true "constant" "linear" 0
  let track_vertices_line ← find_line_after "uv_track_vertices" uvt_line c5
  let c6 ← popUntilEnd (c5.length + 1) c5 track_vertices_line
  let empty_channels := channel_lines "lower_left" ++ channel_lines "upper_left"
    ++ channel_lines "lower_right" ++ channel_lines "upper_right"
  let c7 := pyInsertLoop c6 track_vertices_line empty_channels
  bilinearCornerLoop node_name width height c7 (cornersList cs)

/-! ### Whole-operation runs and host-event traces -/

/-- Host-visible effects of one import operation, in statement order. -/
inductive HostEvent
  | createNode (kind : String)
  | saveNodeSetup (path : String)
  | readSetupFile (path : String)
  | writeSetupFile (path : String) (lines : List String)
  | loadNodeSetup (path : String)
  | removeTempFolder
deriving DecidableEq

/-- The text `import_perspective_grid` writes back, as a function of the
start frame, the selected files, the existing node names and the saved
setup text. -/
def perspectiveGridRun (startFrame : Int) (files : List (String × List String))
    (existingNodes : List String) (setupText : List String) :
    Option (List String) :=
  match parse_mocha_files startFrame files with
  | .error _ => none
  | .ok r => importPerspectiveGridEdit (name_import r.1 existingNodes) setupText r.2

/-- The text `import_bilinear_uvs` writes back. -/
def bilinearUvsRun (startFrame : Int) (files : List (String × List String))
    (existingNodes : List String) (setupText : List String) :
    Option (List String) :=
  match parse_mocha_files startFrame files with
  | .error _ => none
  | .ok r => importBilinearEdit (name_import r.1 existingNodes) setupText r.2

/-- Host events of `import_perspective_grid`, in the statement order of the
source: parse (an exception ends the run), create node, save setup, read the
setup file, edit in memory (an exception ends the run), write the file,
reload, remove the temp folder. -/
def perspectiveGridTrace (startFrame : Int) (files : List (String × List String))
    (existingNodes : List String) (setupText : List String)
    (savePath fileName : String) : List HostEvent :=
  match parse_mocha_files startFrame files with
  | .error _ => []
  | .ok r =>
    [.createNode "Perspective Grid", .saveNodeSetup savePath,
     .readSetupFile fileName] ++
    (match importPerspectiveGridEdit (name_import r.1 existingNodes) setupText r.2 with
     | none => []
     | some patched =>
       [.writeSetupFile fileName patched, .loadNodeSetup savePath,
        .removeTempFolder])

/-- Host events of `import_bilinear_uvs`, in the statement order of the
source. -/
def bilinearUvsTrace (startFrame : Int) (files : List (String × List String))
    (existingNodes : List String) (setupText : List String)
    (savePath fileName : String) : List HostEvent :=
  match parse_mocha_files startFrame files with
  | .error _ => []
  | .ok r =>
    [.createNode "Surface", .saveNodeSetup savePath, .readSetupFile fileName] ++
    (match importBilinearEdit (name_import r.1 existingNodes) setupText r.2 with
     | none => []
     | some patched =>
       [.writeSetupFile fileName patched, .loadNodeSetup savePath,
        .removeTempFolder])

/-! ### Sample inputs used by concrete witnesses -/

/-- A valid selection of four tracker files with one keyframe each. -/
def sampleTrackerFiles : List (String × List String) :=
  [("d/A_Tracker1.ascii", ["1: 2.0, 3.0"]),
   ("d/A_Tracker2.ascii", ["1: 4.0, 3.0"]),
   ("d/A_Tracker3.ascii", ["1: 2.0, 1.0"]),
   ("d/A_Tracker4.ascii", ["1: 4.0, 1.0"])]

/-- A minimal saved perspective-grid setup accepted by every edit of
`import_perspective_grid` (node name `"A"`). -/
def samplePerspectiveSetup : List String :=
  ["FrameWidth 4\n",
   "FrameHeight 4\n",
   "Node A\n",
   "\t\tTransformIs3D yes\n",
   "Channel lower_left_corner/x\n", "e\n", "v\n",
   "Channel lower_left_corner/y\n", "e\n", "v\n",
   "Channel upper_left_corner/x\n", "e\n", "v\n",
   "Channel upper_left_corner/y\n", "e\n", "v\n",
   "Channel lower_right_corner/x\n", "e\n", "v\n",
   "Channel lower_right_corner/y\n", "e\n", "v\n",
   "Channel upper_right_corner/x\n", "e\n", "v\n",
   "Channel upper_right_corner/y\n", "e\n", "v\n",
   "End\n"]

/-- A minimal saved surface setup accepted by every edit of
`import_bilinear_uvs` (node name `"A"`). -/
def sampleSurfaceSetup : List String :=
  ["Node Surface\n",
   "Name A\n",
   "ResWidth 4\n",
   "ResHeight 4\n",
   "IsSoftImported no\n",
   "NumUVTrackControlPoints 0\n",
   "Channel uv_track_shape\n", "e\n", "v\n",
   "Channel uv_track_vertices\n",
   "End\n"]

/-! ### Helper lemmas about the list primitives -/

theorem lineAt_cons_zero (a : String) (l : List String) : lineAt (a :: l) 0 = a := by
  simp [lineAt]

theorem lineAt_cons_succ (a : String) (l : List String) (n : Nat) :
    lineAt (a :: l) (n + 1) = lineAt l n := by
  simp [lineAt]

theorem pySplice_eq (l : List α) (s : Nat) (ins : List α) :
    pySplice l s ins = l.take s ++ ins ++ l.drop s := by
  induction l generalizing s with
  | nil => cases s <;> simp [pySplice]
  | cons x t ih => cases s <;> simp [pySplice, ih]

theorem pySplice_pySplice (l : List α) (s : Nat) (x : α) (xs : List α) :
    pySplice (pySplice l s [x]) (s + 1) xs = pySplice l s (x :: xs) := by
  induction l generalizing s with
  | nil => cases s <;> simp [pySplice]
  | cons a t ih => cases s <;> simp [pySplice, ih]

theorem pyInsertLoop_eq_splice (xs : List α) (l : List α) (s : Nat) :
    pyInsertLoop l s xs = pySplice l s xs := by
  induction xs generalizing l s with
  | nil =>
    have : pySplice l s [] = l.take s ++ [] ++ l.drop s := pySplice_eq l s []
    simp only [pyInsertLoop, this, List.append_nil, List.take_append_drop]
  | cons x xs ih =>
    rw [pyInsertLoop, pyInsert, ih, pySplice_pySplice]

theorem pyInsertLoop_eq (xs : List α) (l : List α) (s : Nat) :
    pyInsertLoop l s xs = l.take s ++ xs ++ l.drop s := by
  rw [pyInsertLoop_eq_splice, pySplice_eq]

theorem pySetAux_eq (l : List α) (n : Nat) (v : α) :
    pySetAux v l n = if n < l.length then some (l.set n v) else none := by
  induction l generalizing n with
  | nil => simp [pySetAux]
  | cons x t ih =>
    cases n with
    | zero => simp [pySetAux]
    | succ m =>
      simp only [pySetAux, ih, List.length_cons, List.set_cons_succ]
      by_cases h : m < t.length
      · simp [h, Nat.succ_lt_succ h]
      · simp [h, fun hh => h (Nat.lt_of_succ_lt_succ hh)]

theorem pySet_coe (l : List α) (n : Nat) (v : α) :
    pySet l (n : Int) v = if n < l.length then some (l.set n v) else none := by
  simp [pySet, pySetAux_eq]

theorem pyGet_zero (l : List α) : pyGet l 0 = l[0]? := by
  simp [pyGet]

theorem pyGet_neg_one (l : List α) :
    pyGet l (-1) = if l.length = 0 then none else l[l.length - 1]? := by
  by_cases h : l.length = 0
  · simp [pyGet, h]
  · have h1 : (0 : Int) ≤ -1 + l.length := by omega
    have h2 : ((-1 : Int) + l.length).toNat = l.length - 1 := by omega
    simp only [pyGet, if_pos (by omega : (-1 : Int) < 0), if_pos h1, h2, if_neg h]

/-! ### Characterization of `find_line` and `find_line_after` -/

theorem findLine_some_iff (item : String) (l : List String) (i : Nat) :
    find_line item l = some i ↔
      i < l.length ∧ lineContains (lineAt l i) item = true ∧
        ∀ j < i, lineContains (lineAt l j) item = false := by
  induction l generalizing i with
  | nil => simp [find_line]
  | cons a t ih =>
    by_cases h : lineContains a item
    · simp only [find_line, if_pos h]
      constructor
      · rintro h2
        cases h2
        exact ⟨by simp, by simpa [lineAt_cons_zero], by omega⟩
      · rintro ⟨_, _, hmin⟩
        cases i with
        | zero => rfl
        | succ m =>
          have := hmin 0 (by omega)
          rw [lineAt_cons_zero] at this
          rw [h] at this
          cases this
    · simp only [find_line, if_neg h, Option.map_eq_some']
      constructor
      · rintro ⟨m, hm, rfl⟩
        obtain ⟨h1, h2, h3⟩ := (ih m).mp hm
        refine ⟨by simpa using h1, by simpa [lineAt_cons_succ], ?_⟩
        intro j hj
        cases j with
        | zero => simpa [lineAt_cons_zero] using Bool.eq_false_iff.mpr h
        | succ k => rw [lineAt_cons_succ]; exact h3 k (by omega)
      · rintro ⟨h1, h2, h3⟩
        cases i with
        | zero =>
          rw [lineAt_cons_zero] at h2
          exact absurd h2 h
        | succ m =>
          refine ⟨m, (ih m).mpr ⟨by simpa using h1, by simpa [lineAt_cons_succ] using h2, ?_⟩, rfl⟩
          intro j hj
          have := h3 (j + 1) (by omega)
          rwa [lineAt_cons_succ] at this

theorem findLine_none_iff (item : String) (l : List String) :
    find_line item l = none ↔ ∀ j < l.length, lineContains (lineAt l j) item = false := by
  induction l with
  | nil => simp [find_line]
  | cons a t ih =>
    by_cases h : lineContains a item
    · simp only [find_line, if_pos h]
      constructor
      · intro hc
        cases hc
      · intro hall
        have := hall 0 (by simp)
        rw [lineAt_cons_zero] at this
        rw [h] at this
        cases this
    · simp only [find_line, if_neg h, Option.map_eq_none', ih]
      constructor
      · intro hall j hj
        cases j with
        | zero => simpa [lineAt_cons_zero] using Bool.eq_false_iff.mpr h
        | succ k => rw [lineAt_cons_succ]; exact hall k (by simpa using hj)
      · intro hall j hj
        have := hall (j + 1) (by simpa using hj)
        rwa [lineAt_cons_succ] at this

theorem findLineAfterAux_some_iff (item : String) (n : Nat) (l : List String)
    (i j : Nat) :
    findLineAfterAux item n i l = some j ↔
      i ≤ j ∧ j - i < l.length ∧ n < j ∧
        lineContains (lineAt l (j - i)) item = true ∧
        ∀ k, i ≤ k → k < j → ¬(n < k ∧ lineContains (lineAt l (k - i)) item = true) := by
  induction l generalizing i with
  | nil => simp [findLineAfterAux]
  | cons a t ih =>
    by_cases h : n < i ∧ lineContains a item = true
    · have hcond : (decide (n < i) && lineContains a item) = true := by
        simp [h.1, h.2]
      simp only [findLineAfterAux, hcond, if_true]
      constructor
      · rintro h2
        cases h2
        refine ⟨Nat.le_refl _, by simp, h.1, ?_, ?_⟩
        · rw [Nat.sub_self, lineAt_cons_zero]
          exact h.2
        · intro k hk1 hk2
          omega
      · rintro ⟨h1, _, _, h4, hmin⟩
        rcases Nat.lt_or_ge i j with hij | hij
        · have hi0 : i - i = 0 := Nat.sub_self i
          have := hmin i (Nat.le_refl i) hij
          rw [hi0, lineAt_cons_zero] at this
          exact absurd ⟨h.1, h.2⟩ this
        · have : i = j := Nat.le_antisymm h1 hij
          simp [this]
    · have hcond : (decide (n < i) && lineContains a item) = false := by
        rcases not_and_or.mp h with hc | hc
        · simp [hc]
        · simp [Bool.eq_false_iff.mpr hc]
      simp only [findLineAfterAux, hcond, Bool.false_eq_true, if_false, ih]
      constructor
      · rintro ⟨h1, h2, h3, h4, hmin⟩
        have hsub : j - i = (j - (i + 1)) + 1 := by omega
        refine ⟨by omega, ?_, h3, ?_, ?_⟩
        · simp only [List.length_cons]
          omega
        · rw [hsub, lineAt_cons_succ]
          exact h4
        · intro k hk1 hk2
          rcases Nat.eq_or_lt_of_le hk1 with rfl | hk
          · intro hcontra
            rw [Nat.sub_self, lineAt_cons_zero] at hcontra
            exact h hcontra
          · have := hmin k (by omega) hk2
            have hks : k - i = (k - (i + 1)) + 1 := by omega
            rw [hks, lineAt_cons_succ]
            exact this
      · rintro ⟨h1, h2, h3, h4, hmin⟩
        have hij : i < j := by
          rcases Nat.eq_or_lt_of_le h1 with rfl | hk
          · rw [Nat.sub_self, lineAt_cons_zero] at h4
            exact absurd ⟨h3, h4⟩ h
          · exact hk
        have hsub : j - i = (j - (i + 1)) + 1 := by omega
        rw [hsub, lineAt_cons_succ] at h4
        simp only [List.length_cons] at h2
        refine ⟨by omega, by omega, h3, h4, ?_⟩
        intro k hk1 hk2
        have := hmin k (by omega) hk2
        have hks : k - i = (k - (i + 1)) + 1 := by omega
        rw [hks, lineAt_cons_succ] at this
        exact this

theorem findLineAfter_some_iff (item : String) (n : Nat) (l : List String) (j : Nat) :
    find_line_after item n l = some j ↔
      n < j ∧ j < l.length ∧ lineContains (lineAt l j) item = true ∧
        ∀ k, n < k → k < j → lineContains (lineAt l k) item = false := by
  rw [find_line_after, findLineAfterAux_some_iff]
  constructor
  · rintro ⟨_, h2, h3, h4, hmin⟩
    refine ⟨h3, by simpa using h2, by simpa using h4, ?_⟩
    intro k hk1 hk2
    have := hmin k (Nat.zero_le k) hk2
    rw [Nat.sub_zero] at this
    rcases Bool.eq_false_or_eq_true (lineContains (lineAt l k) item) with ht | hf
    · exact absurd ⟨hk1, ht⟩ this
    · exact hf
  · rintro ⟨h1, h2, h3, hmin⟩
    refine ⟨Nat.zero_le j, by simpa using h2, h1, by simpa using h3, ?_⟩
    intro k _ hk2
    rintro ⟨hnk, hck⟩
    rw [Nat.sub_zero] at hck
    rw [hmin k hnk hk2] at hck
    cases hck

theorem findLineAfterAux_none_iff (item : String) (n : Nat) (l : List String) (i : Nat) :
    findLineAfterAux item n i l = none ↔
      ∀ k, k < l.length → ¬(n < i + k ∧ lineContains (lineAt l k) item = true) := by
  induction l generalizing i with
  | nil => simp [findLineAfterAux]
  | cons a t ih =>
    by_cases h : n < i ∧ lineContains a item = true
    · have hcond : (decide (n < i) && lineContains a item) = true := by
        simp [h.1, h.2]
      simp only [findLineAfterAux, hcond, if_true]
      constructor
      · intro hc
        cases hc
      · intro hall
        have h0 := hall 0 (by simp)
        rw [lineAt_cons_zero, Nat.add_zero] at h0
        exact absurd h h0
    · have hcond : (decide (n < i) && lineContains a item) = false := by
        rcases not_and_or.mp h with hc | hc
        · simp [hc]
        · simp [Bool.eq_false_iff.mpr hc]
      simp only [findLineAfterAux, hcond, Bool.false_eq_true, if_false, ih]
      constructor
      · intro hall k hk
        cases k with
        | zero =>
          rw [lineAt_cons_zero, Nat.add_zero]
          exact h
        | succ m =>
          have := hall m (by simp at hk; omega)
          rw [lineAt_cons_succ]
          exact fun hcontra => this ⟨by omega, hcontra.2⟩
      · intro hall k hk
        have := hall (k + 1) (by simp; omega)
        rw [lineAt_cons_succ] at this
        exact fun hcontra => this ⟨by omega, hcontra.2⟩

theorem findLineAfter_none_iff (item : String) (n : Nat) (l : List String) :
    find_line_after item n l = none ↔
      ∀ k, n < k → k < l.length → lineContains (lineAt l k) item = false := by
  rw [find_line_after, findLineAfterAux_none_iff]
  constructor
  · intro hall k hk1 hk2
    have := hall k hk2
    rcases Bool.eq_false_or_eq_true (lineContains (lineAt l k) item) with ht | hf
    · exact absurd ⟨by omega, ht⟩ this
    · exact hf
  · intro hall k hk
    rintro ⟨h1, h2⟩
    rw [hall k (by omega) hk] at h2
    cases h2

/-! ### Further helper lemmas for the splice characterization -/

theorem getElem?_drop_add (l : List α) (n m : Nat) : (l.drop n)[m]? = l[n + m]? := by
  induction n generalizing l with
  | zero => simp
  | succ k ih =>
    cases l with
    | nil => simp
    | cons a t =>
      have h1 : k + 1 + m = (k + m) + 1 := by omega
      rw [List.drop_succ_cons, ih t, h1]
      simp

theorem set_set_eq_splice (l : List α) (c : Nat) (e v : α) (h : c + 2 < l.length) :
    (l.set (c + 1) e).set (c + 2) v = l.take (c + 1) ++ [e, v] ++ l.drop (c + 3) := by
  have htk : (l.take (c + 1)).length = c + 1 := by
    simp only [List.length_take]
    omega
  have hd : l.drop (c + 1 + 1) = l[c + 1 + 1] :: l.drop (c + 1 + 1 + 1) :=
    List.drop_eq_getElem_cons (by omega)
  rw [List.set_eq_take_cons_drop e (by omega)]
  rw [List.set_append_right _ _ (by rw [htk]; omega)]
  rw [htk, show c + 2 - (c + 1) = 1 from by omega, hd]
  simp only [List.set_cons_succ, List.set_cons_zero]
  simp [List.append_assoc]

theorem key_frame_length (showV : α → String) (i : Nat) (f : Int) (v : α)
    (value_lock : Bool) (curve_order : String) :
    (key_frame showV i f v value_lock curve_order).length
      = if value_lock then 11 else 10 := by
  cases value_lock <;> rfl

theorem keyBlocks_length (showV : α → String) (value_lock : Bool)
    (curve_order : String) (anim : List (Int × α)) :
    ∀ s : Nat,
      (concatMap (fun p => key_frame showV p.1 p.2.1 p.2.2 value_lock curve_order)
          (enumFrom s anim)).length
        = (if value_lock then 11 else 10) * anim.length := by
  induction anim with
  | nil => intro s; rfl
  | cons x t ih =>
    intro s
    simp only [enumFrom, concatMap, List.length_append, key_frame_length, ih,
      List.length_cons]
    cases value_lock <;> simp <;> omega

theorem animLines_length (showV : α → String) (anim : List (Int × α))
    (value_lock : Bool) (curve_order : String) :
    (animLines showV anim value_lock curve_order).length
      = 2 + (if value_lock then 11 else 10) * anim.length := by
  cases value_lock <;> simp [animLines, keyBlocks_length] <;> omega

theorem pySet_coe_one (l : List α) (c : Nat) (v : α) (h : c + 1 < l.length) :
    pySet l ((c : Int) + 1) v = some (l.set (c + 1) v) := by
  have hc : ((c : Int) + 1) = ((c + 1 : Nat) : Int) := by push_cast; ring
  rw [hc, pySet_coe, if_pos h]

theorem pySet_coe_two (l : List α) (c : Nat) (v : α) (h : c + 2 < l.length) :
    pySet l ((c : Int) + 2) v = some (l.set (c + 2) v) := by
  have hc : ((c : Int) + 2) = ((c + 2 : Nat) : Int) := by push_cast; ring
  rw [hc, pySet_coe, if_pos h]

theorem pyGet_of_ne_nil (animation : List α) (hne : animation ≠ [])
    (vi : Int) (hvi : vi = 0 ∨ vi = -1) : ∃ v, pyGet animation vi = some v := by
  have hpos : 0 < animation.length := List.length_pos.mpr hne
  rcases hvi with rfl | rfl
  · exact ⟨animation[0], by rw [pyGet_zero]; exact List.getElem?_eq_getElem hpos⟩
  · refine ⟨animation[animation.length - 1], ?_⟩
    rw [pyGet_neg_one, if_neg (by omega)]
    exact List.getElem?_eq_getElem (by omega)

/-! ### Claim theorems -/

/-- C9: for every string `item` and list of lines `setup`, `find_line`
returns the smallest index whose line contains `item` as a substring and
`None` when no line does; `find_line_after item n setup` returns the
smallest such index strictly greater than `n` and `None` when there is
none. -/
theorem c9_find_line_first_occurrence (item : String) (setup : List String) (n : Nat) :
    (∀ i, find_line item setup = some i ↔
        (i < setup.length ∧ lineContains (lineAt setup i) item = true ∧
          ∀ j < i, lineContains (lineAt setup j) item = false))
    ∧ (find_line item setup = none ↔
        ∀ j < setup.length, lineContains (lineAt setup j) item = false)
    ∧ (∀ i, find_line_after item n setup = some i ↔
        (n < i ∧ i < setup.length ∧ lineContains (lineAt setup i) item = true ∧
          ∀ j, n < j → j < i → lineContains (lineAt setup j) item = false))
    ∧ (find_line_after item n setup = none ↔
        ∀ j, n < j → j < setup.length → lineContains (lineAt setup j) item = false) :=
  ⟨fun i => findLine_some_iff item setup i,
   findLine_none_iff item setup,
   fun i => findLineAfter_some_iff item n setup i,
   findLineAfter_none_iff item n setup⟩

/-- Witness for C9 at a concrete setup list. -/
theorem c9_find_line_first_occurrence_witness :
    find_line "b" ["a\n", "xbx\n", "b\n"] = some 1 ∧
      find_line_after "b" 1 ["a\n", "xbx\n", "b\n"] = some 2 :=
  ⟨((c9_find_line_first_occurrence "b" ["a\n", "xbx\n", "b\n"] 1).1 1).mpr (by decide),
   ((c9_find_line_first_occurrence "b" ["a\n", "xbx\n", "b\n"] 1).2.2.1 2).mpr
     ⟨by decide, by decide, by decide, fun j h1 h2 => absurd h2 (by omega)⟩⟩

/-- C10 (amended): when `c` is the first line containing `channel` after the
first line containing `node_name`, at least two lines follow line `c`, the
animation list is non-empty and `value_index` is one of the two values the
script uses (`0` or `-1`), `add_animation` returns the input list with line
`c+1` replaced by the `Extrapolation` line, line `c+2` replaced by a `Value`
line holding `animation[value_index]`'s value, and `2 + 10*len(animation)`
new lines (11 per keyframe under `value_lock`) inserted from index `c+3`;
lines up to `c` stay in place and lines from `c+3` on shift down by the
inserted count. -/
theorem c10_add_animation_frame_effect (showV : α → String) (node_name : String)
    (setup : List String) (channel : String) (animation : List (Int × α))
    (value_lock : Bool) (extrapolation curve_order : String) (value_index : Int)
    (nl c : Nat)
    (hnode : find_line node_name setup = some nl)
    (hchan : find_line_after channel nl setup = some c)
    (hroom : c + 2 < setup.length)
    (hne : animation ≠ [])
    (hvi : value_index = 0 ∨ value_index = -1) :
    ∃ v, pyGet animation value_index = some v ∧
      (add_animation showV node_name setup channel animation value_lock
          extrapolation curve_order value_index
        = some (setup.take (c + 1)
            ++ ["\t\t\tExtrapolation " ++ extrapolation ++ "\n",
                "\t\t\tValue " ++ showV v.2 ++ "\n"]
            ++ animLines showV animation value_lock curve_order
            ++ setup.drop (c + 3))) ∧
      (animLines showV animation value_lock curve_order).length
        = 2 + (if value_lock then 11 else 10) * animation.length ∧
      (∀ j, j ≤ c →
        (setup.take (c + 1)
            ++ ["\t\t\tExtrapolation " ++ extrapolation ++ "\n",
                "\t\t\tValue " ++ showV v.2 ++ "\n"]
            ++ animLines showV animation value_lock curve_order
            ++ setup.drop (c + 3))[j]? = setup[j]?) ∧
      (∀ j, c + 3 ≤ j → j < setup.length →
        (setup.take (c + 1)
            ++ ["\t\t\tExtrapolation " ++ extrapolation ++ "\n",
                "\t\t\tValue " ++ showV v.2 ++ "\n"]
            ++ animLines showV animation value_lock curve_order
            ++ setup.drop (c + 3))[j + (animLines showV animation value_lock curve_order).length]?
          = setup[j]?) := by
  obtain ⟨v, hv⟩ := pyGet_of_ne_nil animation hne value_index hvi
  set eLine := "\t\t\tExtrapolation " ++ extrapolation ++ "\n" with heL
  set vLine := "\t\t\tValue " ++ showV v.2 ++ "\n" with hvL
  set ins := animLines showV animation value_lock curve_order with hins
  have hlen1 : (setup.set (c + 1) eLine).length = setup.length := by simp
  have hs1 : pySet setup ((c : Int) + 1) eLine = some (setup.set (c + 1) eLine) :=
    pySet_coe_one setup c eLine (by omega)
  have hs2 : pySet (setup.set (c + 1) eLine) ((c : Int) + 2) vLine
      = some ((setup.set (c + 1) eLine).set (c + 2) vLine) :=
    pySet_coe_two (setup.set (c + 1) eLine) c vLine (by rw [hlen1]; omega)
  have hset2 : (setup.set (c + 1) eLine).set (c + 2) vLine
      = setup.take (c + 1) ++ [eLine, vLine] ++ setup.drop (c + 3) :=
    set_set_eq_splice setup c eLine vLine hroom
  have htk : (setup.take (c + 1)).length = c + 1 := by
    simp only [List.length_take]
    omega
  have hBlen : (setup.take (c + 1) ++ [eLine, vLine]).length = c + 3 := by
    simp [htk]
  have hrun : add_animation showV node_name setup channel animation value_lock
      extrapolation curve_order value_index
      = some (setup.take (c + 1) ++ [eLine, vLine] ++ ins ++ setup.drop (c + 3)) := by
    simp only [add_animation, Option.bind_eq_bind, Option.some_bind, hnode, hchan,
      hs1, hv, hs2]
    rw [pyInsertLoop_eq_splice, hset2, pySplice_eq]
    rw [List.append_assoc (setup.take (c + 1)) [eLine, vLine] (setup.drop (c + 3))]
    rw [← List.append_assoc (setup.take (c + 1)) [eLine, vLine]]
    rw [List.take_left' hBlen, List.drop_left' hBlen]
  refine ⟨v, hv, hrun, animLines_length showV animation value_lock curve_order, ?_, ?_⟩
  · intro j hj
    rw [List.append_assoc, List.append_assoc]
    rw [List.getElem?_append_left (by rw [htk]; omega)]
    exact List.getElem?_take_of_lt (by omega)
  · intro j hj1 hj2
    rw [show setup.take (c + 1) ++ [eLine, vLine] ++ ins ++ setup.drop (c + 3)
        = (setup.take (c + 1) ++ [eLine, vLine] ++ ins) ++ setup.drop (c + 3) by
      simp [List.append_assoc]]
    have hPlen : (setup.take (c + 1) ++ [eLine, vLine] ++ ins).length = c + 3 + ins.length := by
      simp [htk]
      omega
    rw [List.getElem?_append_right (by rw [hPlen]; omega)]
    rw [hPlen, getElem?_drop_add]
    congr 1
    omega

/-- Witness for C10 at a concrete setup. -/
theorem c10_add_animation_frame_effect_witness :
    find_line "A" ["A", "B", "e", "v", "z"] = some 0 ∧
    find_line_after "B" 0 ["A", "B", "e", "v", "z"] = some 1 ∧
    1 + 2 < (["A", "B", "e", "v", "z"] : List String).length ∧
    ([((1 : Int), (2 : ℚ))] : List (Int × ℚ)) ≠ [] ∧
    ((0 : Int) = 0 ∨ (0 : Int) = -1) ∧
    (∃ w, pyGet [((1 : Int), (2 : ℚ))] (0 : Int) = some w ∧
      add_animation pyShowFloat "A" ["A", "B", "e", "v", "z"] "B"
          [((1 : Int), (2 : ℚ))] false "linear" "linear" 0
        = some ((["A", "B", "e", "v", "z"] : List String).take 2
            ++ ["\t\t\tExtrapolation linear\n",
                "\t\t\tValue " ++ pyShowFloat w.2 ++ "\n"]
            ++ animLines pyShowFloat [((1 : Int), (2 : ℚ))] false "linear"
            ++ (["A", "B", "e", "v", "z"] : List String).drop 4)) := by
  refine ⟨by decide, by decide, by decide, by decide, Or.inl rfl, ?_⟩
  obtain ⟨w, hw1, hw2, _⟩ := c10_add_animation_frame_effect pyShowFloat "A"
    ["A", "B", "e", "v", "z"] "B" [((1 : Int), (2 : ℚ))] false "linear" "linear" 0
    0 1 (by decide) (by decide) (by decide) (by decide) (Or.inl rfl)
  exact ⟨w, hw1, hw2⟩

/-- C10 counterexample: with setup `["A", "B"]`, node name `"A"` and channel
`"B"`, the channel occurs at the later line `c = 1` and the animation is
non-empty, yet `add_animation` does not return a modified list: Python
raises `IndexError` on `setup[c+1] = ...` (modelled as `none`), while the
claim asserts an unconditional in-place edit. -/
theorem c10_counterexample :
    add_animation pyShowFloat "A" ["A", "B"] "B" [((1 : Int), (0 : ℚ))]
      false "linear" "linear" 0 = none := by
  rfl

/-! ### Lemmas about the validation loop -/

theorem dedup_all_eq (l : List String) (c : String) (hne : l ≠ [])
    (hall : ∀ a ∈ l, a = c) : l.dedup = [c] := by
  induction l with
  | nil => exact absurd rfl hne
  | cons a t ih =>
    have hac : a = c := hall a (by simp)
    subst hac
    cases t with
    | nil => simp
    | cons b t2 =>
      have hbc : b = a := by
        have h1 := hall b (by simp)
        have h2 := hall a (by simp)
        rw [h1, h2]
      have hmem : a ∈ b :: t2 := by rw [hbc]; simp
      rw [List.dedup_cons_of_mem hmem]
      exact ih (by simp) (fun x hx => hall x (by simp [hx]))

theorem dedup_append_ne (l : List String) (c d : String) (hne : l ≠ [])
    (hall : ∀ a ∈ l, a = c) (hdc : d ≠ c) : (l ++ [d]).dedup = [c, d] := by
  induction l with
  | nil => exact absurd rfl hne
  | cons a t ih =>
    have hac : a = c := hall a (by simp)
    subst hac
    cases t with
    | nil =>
      simp only [List.nil_append, List.singleton_append]
      rw [List.dedup_cons_of_not_mem (by
        simp only [List.mem_singleton]
        exact fun h : a = d => hdc h.symm)]
      simp
    | cons b t2 =>
      have hbc : b = a := by
        have h1 := hall b (by simp)
        have h2 := hall a (by simp)
        rw [h1, h2]
      have hmem : a ∈ (b :: t2) ++ [d] := by rw [hbc]; simp
      rw [List.cons_append, List.dedup_cons_of_mem hmem]
      exact ih (by simp) (fun x hx => hall x (by simp [hx]))

theorem headD_append_all (acc : List String) (c t : String)
    (hall : ∀ a ∈ acc, a = c) : (acc ++ [c]).headD t = c := by
  cases acc with
  | nil => simp
  | cons a t2 =>
    have := hall a (by simp)
    simp [this]

theorem validateLoop_nomatch (nm : String) (rest acc : List String) (t : String)
    (h : trackerMatchStart nm = none) :
    validateLoop (nm :: rest) acc t = .error .typeError := by
  simp [validateLoop, h]

theorem validateLoop_step (nm : String) (rest acc : List String) (t c : String)
    (hm : filenameTrackPart nm = some c) (hacc : ∀ a ∈ acc, a = c) :
    validateLoop (nm :: rest) acc t = validateLoop rest (acc ++ [c]) c := by
  obtain ⟨k, hk, hkc⟩ := Option.map_eq_some'.mp hm
  have hlen : pySetLen (acc ++ [c]) = 1 := by
    rw [pySetLen, dedup_all_eq (acc ++ [c]) c (by simp)
      (fun a ha => by
        rcases List.mem_append.mp ha with h1 | h1
        · exact hacc a h1
        · simpa using h1)]
    rfl
  simp only [validateLoop, hk, hkc, hlen]
  rw [if_neg (by omega)]
  rw [headD_append_all acc c t hacc]

theorem validateLoop_mismatch (nm : String) (rest acc : List String) (t c d : String)
    (hm : filenameTrackPart nm = some d) (hdc : d ≠ c)
    (hacc : ∀ a ∈ acc, a = c) (hne : acc ≠ []) :
    validateLoop (nm :: rest) acc t = .error .valueError := by
  obtain ⟨k, hk, hkd⟩ := Option.map_eq_some'.mp hm
  have hlen : pySetLen (acc ++ [d]) = 2 := by
    rw [pySetLen, dedup_append_ne acc c d hne hacc hdc]
    rfl
  simp only [validateLoop, hk, hkd, hlen]
  rw [if_pos (by omega)]

theorem validateLoop_ok (names : List String) (c : String) :
    ∀ acc, acc ≠ [] → (∀ a ∈ acc, a = c) →
      (∀ nm ∈ names, filenameTrackPart nm = some c) →
      validateLoop names acc c = .ok c := by
  induction names with
  | nil => intro acc _ _ _; rfl
  | cons nm rest ih =>
    intro acc hne hacc hnames
    rw [validateLoop_step nm rest acc c c (hnames nm (by simp)) hacc]
    exact ih (acc ++ [c]) (by simp)
      (fun a ha => by
        rcases List.mem_append.mp ha with h1 | h1
        · exact hacc a h1
        · simpa using h1)
      (fun x hx => hnames x (by simp [hx]))

/-- C1 (amended): `parse_mocha_files` raises `ValueError` when the number of
selected files is not exactly 4.  Given four files it scans them in order
and raises at the first offending file: `TypeError` when that filename does
not contain `_Tracker` followed by a digit 1-4 (and every earlier filename
matched with the common prefix), `ValueError` when it matches but its
prefix differs from the earlier files' common prefix; when all four match
with one common prefix the validation raises nothing and `track_name` is
that prefix. -/
theorem c1_selection_validation (paths : List String) :
    (paths.length ≠ 4 → validateMochaSelection paths = .error .valueError)
    ∧ (paths.length = 4 →
        (∀ c, (∀ j < 4, pathTrackPart (lineAt paths j) = some c) →
          validateMochaSelection paths = .ok c)
        ∧ (∀ k, k < 4 →
            (∀ j < k, pathTrackPart (lineAt paths j) = pathTrackPart (lineAt paths 0)
              ∧ (pathTrackPart (lineAt paths j)).isSome = true) →
            pathTrackPart (lineAt paths k) = none →
            validateMochaSelection paths = .error .typeError)
        ∧ (∀ k, k < 4 →
            (∀ j < k, pathTrackPart (lineAt paths j) = pathTrackPart (lineAt paths 0)) →
            (∀ j, j ≤ k → (pathTrackPart (lineAt paths j)).isSome = true) →
            pathTrackPart (lineAt paths k) ≠ pathTrackPart (lineAt paths 0) →
            validateMochaSelection paths = .error .valueError)) := by
  constructor
  · intro h
    simp [validateMochaSelection, h]
  · intro hlen
    obtain ⟨a, b, c, d, rfl⟩ : ∃ a b c d, paths = [a, b, c, d] := by
      rcases paths with _ | ⟨a, _ | ⟨b, _ | ⟨c, _ | ⟨d, _ | ⟨e, t⟩⟩⟩⟩⟩ <;>
        first
          | (exact ⟨a, b, c, d, rfl⟩)
          | (exfalso; simp at hlen)
    have hunf : validateMochaSelection [a, b, c, d]
        = validateLoop [pathFilename a, pathFilename b, pathFilename c,
            pathFilename d] [] "" := by
      simp [validateMochaSelection]
    have e0 : lineAt [a, b, c, d] 0 = a := rfl
    have e1 : lineAt [a, b, c, d] 1 = b := rfl
    have e2 : lineAt [a, b, c, d] 2 = c := rfl
    have e3 : lineAt [a, b, c, d] 3 = d := rfl
    refine ⟨?_, ?_, ?_⟩
    · intro tn hall
      have h0 : filenameTrackPart (pathFilename a) = some tn := by
        have := hall 0 (by omega)
        rwa [e0] at this
      have h1 : filenameTrackPart (pathFilename b) = some tn := by
        have := hall 1 (by omega)
        rwa [e1] at this
      have h2 : filenameTrackPart (pathFilename c) = some tn := by
        have := hall 2 (by omega)
        rwa [e2] at this
      have h3 : filenameTrackPart (pathFilename d) = some tn := by
        have := hall 3 (by omega)
        rwa [e3] at this
      rw [hunf, validateLoop_step _ _ _ _ _ h0 (by simp)]
      exact validateLoop_ok _ tn [tn] (by simp) (by simp)
        (by
          intro nm hnm
          simp only [List.mem_cons, List.not_mem_nil, or_false] at hnm
          rcases hnm with rfl | rfl | rfl
          · exact h1
          · exact h2
          · exact h3)
    · intro k hk hpre hnone
      interval_cases k
      · rw [e0] at hnone
        have hms : trackerMatchStart (pathFilename a) = none :=
          Option.map_eq_none'.mp hnone
        rw [hunf]
        exact validateLoop_nomatch _ _ _ _ hms
      · obtain ⟨heq0, hsome0⟩ := hpre 0 (by omega)
        rw [e0] at hsome0
        obtain ⟨tn, htn⟩ := Option.isSome_iff_exists.mp hsome0
        rw [e1] at hnone
        have hms : trackerMatchStart (pathFilename b) = none :=
          Option.map_eq_none'.mp hnone
        rw [hunf, validateLoop_step _ _ _ _ tn htn (by simp)]
        exact validateLoop_nomatch _ _ _ _ hms
      · obtain ⟨heq0, hsome0⟩ := hpre 0 (by omega)
        obtain ⟨heq1, hsome1⟩ := hpre 1 (by omega)
        rw [e0] at hsome0
        rw [e1, e0] at heq1
        obtain ⟨tn, htn⟩ := Option.isSome_iff_exists.mp hsome0
        have htn1 : filenameTrackPart (pathFilename b) = some tn := by
          have : pathTrackPart b = some tn := by rw [heq1]; exact htn
          exact this
        rw [e2] at hnone
        have hms : trackerMatchStart (pathFilename c) = none :=
          Option.map_eq_none'.mp hnone
        rw [hunf, validateLoop_step _ _ _ _ tn htn (by simp),
          validateLoop_step _ _ _ _ tn htn1 (by simp)]
        exact validateLoop_nomatch _ _ _ _ hms
      · obtain ⟨heq0, hsome0⟩ := hpre 0 (by omega)
        obtain ⟨heq1, hsome1⟩ := hpre 1 (by omega)
        obtain ⟨heq2, hsome2⟩ := hpre 2 (by omega)
        rw [e0] at hsome0
        rw [e1, e0] at heq1
        rw [e2, e0] at heq2
        obtain ⟨tn, htn⟩ := Option.isSome_iff_exists.mp hsome0
        have htn1 : filenameTrackPart (pathFilename b) = some tn := by
          have : pathTrackPart b = some tn := by rw [heq1]; exact htn
          exact this
        have htn2 : filenameTrackPart (pathFilename c) = some tn := by
          have : pathTrackPart c = some tn := by rw [heq2]; exact htn
          exact this
        rw [e3] at hnone
        have hms : trackerMatchStart (pathFilename d) = none :=
          Option.map_eq_none'.mp hnone
        rw [hunf, validateLoop_step _ _ _ _ tn htn (by simp),
          validateLoop_step _ _ _ _ tn htn1 (by simp),
          validateLoop_step _ _ _ _ tn htn2 (by simp)]
        exact validateLoop_nomatch _ _ _ _ hms
    · intro k hk hpre hsome hne
      interval_cases k
      · exact absurd rfl hne
      · have hsome0 := hsome 0 (by omega)
        rw [e0] at hsome0
        obtain ⟨tn, htn⟩ := Option.isSome_iff_exists.mp hsome0
        have hsome1 := hsome 1 (by omega)
        rw [e1] at hsome1
        obtain ⟨dn, hdn⟩ := Option.isSome_iff_exists.mp hsome1
        rw [e1, e0] at hne
        have hdt : dn ≠ tn := by
          intro hcontra
          rw [hcontra] at hdn
          exact hne (hdn.trans htn.symm)
        rw [hunf, validateLoop_step _ _ _ _ tn htn (by simp)]
        exact validateLoop_mismatch _ _ _ _ tn dn hdn hdt (by simp) (by simp)
      · have hsome0 := hsome 0 (by omega)
        rw [e0] at hsome0
        obtain ⟨tn, htn⟩ := Option.isSome_iff_exists.mp hsome0
        have heq1 := hpre 1 (by omega)
        rw [e1, e0] at heq1
        have htn1 : filenameTrackPart (pathFilename b) = some tn := by
          have : pathTrackPart b = some tn := by rw [heq1]; exact htn
          exact this
        have hsome2 := hsome 2 (by omega)
        rw [e2] at hsome2
        obtain ⟨dn, hdn⟩ := Option.isSome_iff_exists.mp hsome2
        rw [e2, e0] at hne
        have hdt : dn ≠ tn := by
          intro hcontra
          rw [hcontra] at hdn
          exact hne (hdn.trans htn.symm)
        rw [hunf, validateLoop_step _ _ _ _ tn htn (by simp),
          validateLoop_step _ _ _ _ tn htn1 (by simp)]
        exact validateLoop_mismatch _ _ _ _ tn dn hdn hdt
          (by simp) (by simp)
      · have hsome0 := hsome 0 (by omega)
        rw [e0] at hsome0
        obtain ⟨tn, htn⟩ := Option.isSome_iff_exists.mp hsome0
        have heq1 := hpre 1 (by omega)
        rw [e1, e0] at heq1
        have htn1 : filenameTrackPart (pathFilename b) = some tn := by
          have : pathTrackPart b = some tn := by rw [heq1]; exact htn
          exact this
        have heq2 := hpre 2 (by omega)
        rw [e2, e0] at heq2
        have htn2 : filenameTrackPart (pathFilename c) = some tn := by
          have : pathTrackPart c = some tn := by rw [heq2]; exact htn
          exact this
        have hsome3 := hsome 3 (by omega)
        rw [e3] at hsome3
        obtain ⟨dn, hdn⟩ := Option.isSome_iff_exists.mp hsome3
        rw [e3, e0] at hne
        have hdt : dn ≠ tn := by
          intro hcontra
          rw [hcontra] at hdn
          exact hne (hdn.trans htn.symm)
        rw [hunf, validateLoop_step _ _ _ _ tn htn (by simp),
          validateLoop_step _ _ _ _ tn htn1 (by simp),
          validateLoop_step _ _ _ _ tn htn2 (by simp)]
        exact validateLoop_mismatch _ _ _ _ tn dn hdn hdt
          (by simp) (by simp)

/-- C1 counterexample: among the four selected files the third filename
`nomatch.ascii` does not contain `_Tracker[1-4]`, so the claim as stated
demands a `TypeError`; the script instead raises `ValueError`, because the
prefix mismatch of the second file is reached first. -/
theorem c1_counterexample :
    pathTrackPart "nomatch.ascii" = none ∧
    validateMochaSelection
      ["A_Tracker1.ascii", "B_Tracker2.ascii", "nomatch.ascii", "A_Tracker4.ascii"]
      = .error .valueError ∧
    MErr.valueError ≠ MErr.typeError :=
  ⟨by decide, by decide, by decide⟩

/-- Witness for C1 at a concrete selection of four matching files. -/
theorem c1_selection_validation_witness :
    validateMochaSelection
      ["d/A_Tracker1.ascii", "d/A_Tracker2.ascii", "d/A_Tracker3.ascii",
        "d/A_Tracker4.ascii"] = .ok "A" :=
  ((c1_selection_validation
      ["d/A_Tracker1.ascii", "d/A_Tracker2.ascii", "d/A_Tracker3.ascii",
        "d/A_Tracker4.ascii"]).2 (by decide)).1 "A" (by decide)

/-! ### Lemmas about the parse loop -/

theorem appendCorner_field (cs : Corners) (r : Option CornerId) (t : KF)
    (cid : CornerId) :
    cornerField (appendCorner cs r t) cid
      = cornerField cs cid ++ (if r = some cid then [t] else []) := by
  cases r with
  | none => simp [appendCorner]
  | some c => cases c <;> cases cid <;> simp [appendCorner, cornerField]

theorem parseFileLines_field (sfOff : Int) (r : Option CornerId) :
    ∀ (lines : List String) (cs cs2 : Corners),
      parseFileLines sfOff r lines cs = .ok cs2 →
      (∀ line ∈ lines, (frame_to_tuple sfOff line).isSome = true) ∧
      ∀ cid, cornerField cs2 cid
        = cornerField cs cid
          ++ (if r = some cid then lines.filterMap (frame_to_tuple sfOff) else []) := by
  intro lines
  induction lines with
  | nil =>
    intro cs cs2 h
    simp only [parseFileLines] at h
    cases h
    exact ⟨by simp, fun cid => by simp⟩
  | cons line rest ih =>
    intro cs cs2 h
    simp only [parseFileLines] at h
    rcases hft : frame_to_tuple sfOff line with _ | t
    · rw [hft] at h
      cases h
    · rw [hft] at h
      obtain ⟨hall, hfield⟩ := ih (appendCorner cs r t) cs2 h
      refine ⟨?_, fun cid => ?_⟩
      · intro l hl
        rcases List.mem_cons.mp hl with rfl | hl2
        · simp [hft]
        · exact hall l hl2
      · rw [hfield cid, appendCorner_field]
        by_cases hr : r = some cid <;>
          simp [hr, List.filterMap_cons, hft, List.append_assoc]

theorem parseFilesLoop_field (sfOff : Int) :
    ∀ (files : List (String × List String)) (cs cs2 : Corners),
      parseFilesLoop sfOff files cs = .ok cs2 →
      (∀ f ∈ files, ∀ line ∈ f.2, (frame_to_tuple sfOff line).isSome = true) ∧
      ∀ cid, cornerField cs2 cid
        = cornerField cs cid
          ++ concatMap (fun f =>
              if routeCorner f.1 = some cid then
                f.2.filterMap (frame_to_tuple sfOff) else []) files := by
  intro files
  induction files with
  | nil =>
    intro cs cs2 h
    simp only [parseFilesLoop] at h
    cases h
    exact ⟨by simp, fun cid => by simp [concatMap]⟩
  | cons f rest ih =>
    intro cs cs2 h
    obtain ⟨path, flines⟩ := f
    simp only [parseFilesLoop] at h
    rcases hfl : parseFileLines sfOff (routeCorner path) flines cs with e | csMid
    · rw [hfl] at h
      cases h
    · rw [hfl] at h
      obtain ⟨hall1, hf1⟩ := parseFileLines_field sfOff (routeCorner path) flines cs csMid hfl
      obtain ⟨hall2, hf2⟩ := ih csMid cs2 h
      refine ⟨?_, fun cid => ?_⟩
      · intro g hg
        rcases List.mem_cons.mp hg with rfl | hg2
        · exact hall1
        · exact hall2 g hg2
      · rw [hf2 cid, hf1 cid, concatMap]
        simp [List.append_assoc]

/-- C2 (amended): for every selection accepted by the validation whose data
lines all parse, each line is converted — after removing all whitespace and
splitting on colons and commas — into the tuple
`(int(float(field0)) + start_frame - 1, float(field1), float(field2))`, and
the tuples are appended in file order to the corner list chosen by the
tracker number of the file path with its last six characters removed
(`Tracker1` to `upper_left`, `Tracker2` to `upper_right`, `Tracker3` to
`lower_left`, `Tracker4` to `lower_right`); afterwards `self.corners` maps
the four corner names to exactly these four lists. -/
theorem c2_corner_keyframes (startFrame : Int) (files : List (String × List String))
    (name : String) (corners : Corners)
    (h : parse_mocha_files startFrame files = .ok (name, corners)) :
    (corners.upper_left = concatMap (fun f =>
        if routeCorner f.1 = some CornerId.UL then
          f.2.filterMap (frame_to_tuple (startFrame - 1)) else []) files
      ∧ corners.upper_right = concatMap (fun f =>
        if routeCorner f.1 = some CornerId.UR then
          f.2.filterMap (frame_to_tuple (startFrame - 1)) else []) files
      ∧ corners.lower_left = concatMap (fun f =>
        if routeCorner f.1 = some CornerId.LL then
          f.2.filterMap (frame_to_tuple (startFrame - 1)) else []) files
      ∧ corners.lower_right = concatMap (fun f =>
        if routeCorner f.1 = some CornerId.LR then
          f.2.filterMap (frame_to_tuple (startFrame - 1)) else []) files)
    ∧ (∀ f ∈ files, ∀ line ∈ f.2, (frame_to_tuple (startFrame - 1) line).isSome = true)
    ∧ (∀ line t, frame_to_tuple (startFrame - 1) line = some t →
        ∃ f0 f1 f2 rest q,
          mochaFields line = f0 :: f1 :: f2 :: rest ∧
          parsePyFloatChars f0 = some q ∧
          parsePyFloatChars f1 = some t.2.1 ∧
          parsePyFloatChars f2 = some t.2.2 ∧
          t.1 = pyTrunc q + (startFrame - 1)) := by
  have hmain : parseFilesLoop (startFrame - 1) files ⟨[], [], [], []⟩ = .ok corners := by
    rcases hv : validateMochaSelection (files.map (fun f => f.1)) with e | tn
    · rw [parse_mocha_files, hv] at h
      cases h
    · rw [parse_mocha_files, hv] at h
      rcases hl : parseFilesLoop (startFrame - 1) files ⟨[], [], [], []⟩ with e | cs2
      · rw [hl] at h
        cases h
      · rw [hl] at h
        cases h
        rfl
  obtain ⟨hall, hfield⟩ := parseFilesLoop_field (startFrame - 1) files
    ⟨[], [], [], []⟩ corners hmain
  refine ⟨⟨?_, ?_, ?_, ?_⟩, hall, ?_⟩
  · have := hfield .UL
    simpa [cornerField] using this
  · have := hfield .UR
    simpa [cornerField] using this
  · have := hfield .LL
    simpa [cornerField] using this
  · have := hfield .LR
    simpa [cornerField] using this
  · intro line t hline
    simp only [frame_to_tuple, Option.bind_eq_bind, Option.bind_eq_some] at hline
    obtain ⟨f0, hf0, q, hq, f1, hf1, x, hx, f2, hf2, y, hy, hsome⟩ := hline
    have ht : t = (pyTrunc q + (startFrame - 1), x, y) := by
      cases hsome
      rfl
    rcases hfs : mochaFields line with _ | ⟨a, _ | ⟨b, _ | ⟨c, r⟩⟩⟩
    · rw [hfs] at hf0
      simp at hf0
    · rw [hfs] at hf1
      simp at hf1
    · rw [hfs] at hf2
      simp at hf2
    · rw [hfs] at hf0 hf1 hf2
      have ha : a = f0 := by simpa using hf0
      have hb : b = f1 := by simpa using hf1
      have hc : c = f2 := by simpa using hf2
      refine ⟨a, b, c, r, q, rfl, ?_, ?_, ?_, ?_⟩
      · rw [ha]
        exact hq
      · rw [hb, ht]
        exact hx
      · rw [hc, ht]
        exact hy
      · rw [ht]

/-- C2 counterexample: the line `"1 2.0 3.0"` has three colon/whitespace-
separated fields that parse as `1`, `2.0`, `3.0`, so the claim as stated
makes `parse_mocha_files` append the tuple `(1 + start_frame - 1, 2.0, 3.0)`
to `upper_left`; the code instead removes all whitespace, obtains the single
field `"12.03.0"`, and raises `ValueError` from `float()`. -/
theorem c2_counterexample :
    specWsColonFields "1 2.0 3.0" = ["1", "2.0", "3.0"] ∧
    parsePyFloat "1" = some 1 ∧
    parsePyFloat "2.0" = some 2 ∧
    parsePyFloat "3.0" = some 3 ∧
    parse_mocha_files 1
      [("d/A_Tracker1.ascii", ["1 2.0 3.0"]), ("d/A_Tracker2.ascii", []),
       ("d/A_Tracker3.ascii", []), ("d/A_Tracker4.ascii", [])]
      = .error .parseFailure := by
  refine ⟨by decide, ?_, ?_, ?_, ?_⟩ <;> with_unfolding_all rfl

/-- Witness for C2 on the sample selection. -/
theorem c2_corner_keyframes_witness :
    parse_mocha_files 1 sampleTrackerFiles
      = .ok ("A", ⟨[(1, 2, 1)], [(1, 4, 1)], [(1, 2, 3)], [(1, 4, 3)]⟩) ∧
    Corners.upper_left ⟨[(1, 2, 1)], [(1, 4, 1)], [(1, 2, 3)], [(1, 4, 3)]⟩
      = concatMap (fun f =>
          if routeCorner f.1 = some CornerId.UL then
            f.2.filterMap (frame_to_tuple (1 - 1)) else []) sampleTrackerFiles := by
  have hp : parse_mocha_files 1 sampleTrackerFiles
      = .ok ("A", ⟨[(1, 2, 1)], [(1, 4, 1)], [(1, 2, 3)], [(1, 4, 3)]⟩) := by
    with_unfolding_all rfl
  exact ⟨hp, ((c2_corner_keyframes 1 sampleTrackerFiles "A"
    ⟨[(1, 2, 1)], [(1, 4, 1)], [(1, 2, 3)], [(1, 4, 3)]⟩ hp).1).1⟩

theorem perspCornerLoop_eq_claim (node_name : String) (w h : Int) :
    ∀ (l : List (String × List KF)) (cs : List String),
      perspCornerLoop node_name (pyFloorDiv w 2) (pyFloorDiv h 2) cs l
        = claimPerspCornerLoop node_name w h cs l := by
  intro l
  induction l with
  | nil => intro cs; rfl
  | cons kc rest ih =>
    intro cs
    obtain ⟨key, corner⟩ := kc
    simp [perspCornerLoop, claimPerspCornerLoop, extract_dimension,
      List.map_map, Function.comp_def, ih]

/-- C3: in `import_perspective_grid`, every corner keyframe `(f, x, y)` is
translated to Flame's center origin before being written as grid animation:
the keyframes added to `<corner>_corner/x` have value `x - (width // 2) + 0.5`
and those added to `<corner>_corner/y` have value `y - (height // 2) + 0.5`,
where `width` and `height` are the integers parsed from the first
`FrameWidth` line and the first `FrameHeight` line after it, and `//` is
integer floor division. -/
theorem c3_center_origin_translation (node_name : String) (contents : List String)
    (cs : Corners) (wl hl : Nat) (w h : Int)
    (hwl : wl < contents.length ∧ lineContains (lineAt contents wl) "FrameWidth" = true ∧
      ∀ j < wl, lineContains (lineAt contents j) "FrameWidth" = false)
    (hw : readIntAt contents wl = some w)
    (hhl : wl < hl ∧ hl < contents.length ∧
      lineContains (lineAt contents hl) "FrameHeight" = true ∧
      ∀ j, wl < j → j < hl → lineContains (lineAt contents j) "FrameHeight" = false)
    (hh : readIntAt contents hl = some h) :
    importPerspectiveGridEdit node_name contents cs
      = (patchTransformIs3D node_name contents).bind
          (fun c1 => claimPerspCornerLoop node_name w h c1 (cornersList cs)) := by
  have hfw : find_line "FrameWidth" contents = some wl :=
    (findLine_some_iff "FrameWidth" contents wl).mpr hwl
  have hfh : find_line_after "FrameHeight" wl contents = some hl :=
    (findLineAfter_some_iff "FrameHeight" wl contents hl).mpr hhl
  simp only [importPerspectiveGridEdit, Option.bind_eq_bind, Option.some_bind,
    hfw, hw, hfh, hh]
  cases hp : patchTransformIs3D node_name contents with
  | none => rfl
  | some c1 =>
    simp only [Option.some_bind]
    exact perspCornerLoop_eq_claim node_name w h (cornersList cs) c1

/-- Witness for C3 at a concrete setup. -/
theorem c3_center_origin_translation_witness :
    importPerspectiveGridEdit "A" samplePerspectiveSetup ⟨[], [], [], []⟩
      = (patchTransformIs3D "A" samplePerspectiveSetup).bind
          (fun c1 => claimPerspCornerLoop "A" 4 4 c1
            (cornersList ⟨[], [], [], []⟩)) :=
  c3_center_origin_translation "A" samplePerspectiveSetup ⟨[], [], [], []⟩ 0 1 4 4
    ⟨by decide, by decide, by decide⟩ (by with_unfolding_all rfl)
    ⟨by decide, by decide, by decide, fun j h1 h2 => absurd h2 (by omega)⟩
    (by with_unfolding_all rfl)

/-- C4: in `import_perspective_grid`, the first line containing
`TransformIs3D` after the first line containing the new grid's node name is
replaced by the exact line `"\t\tTransformIs3D no\n"`; every other line is
unchanged. -/
theorem c4_transform_is_3d_patch (node_name : String) (contents : List String)
    (g t : Nat)
    (hg : g < contents.length ∧ lineContains (lineAt contents g) node_name = true ∧
      ∀ j < g, lineContains (lineAt contents j) node_name = false)
    (ht : g < t ∧ t < contents.length ∧
      lineContains (lineAt contents t) "TransformIs3D" = true ∧
      ∀ j, g < j → j < t → lineContains (lineAt contents j) "TransformIs3D" = false) :
    patchTransformIs3D node_name contents
      = some (contents.set t "\t\tTransformIs3D no\n") ∧
    (contents.set t "\t\tTransformIs3D no\n")[t]? = some "\t\tTransformIs3D no\n" ∧
    ∀ j, j ≠ t → (contents.set t "\t\tTransformIs3D no\n")[j]? = contents[j]? := by
  have hfl : find_line node_name contents = some g :=
    (findLine_some_iff node_name contents g).mpr hg
  have hfa : find_line_after "TransformIs3D" g contents = some t :=
    (findLineAfter_some_iff "TransformIs3D" g contents t).mpr ht
  refine ⟨?_, ?_, ?_⟩
  · simp only [patchTransformIs3D, Option.bind_eq_bind, Option.some_bind, hfl, hfa]
    rw [pySet_coe, if_pos ht.2.1]
  · exact List.getElem?_set_self ht.2.1
  · intro j hj
    exact List.getElem?_set_ne (fun h => hj h.symm)

/-- Witness for C4 at a concrete setup. -/
theorem c4_transform_is_3d_patch_witness :
    patchTransformIs3D "A" ["Node A\n", "TransformIs3D yes\n"]
      = some (["Node A\n", "TransformIs3D yes\n"].set 1 "\t\tTransformIs3D no\n") ∧
    ((["Node A\n", "TransformIs3D yes\n"] : List String).set 1
        "\t\tTransformIs3D no\n")[1]? = some "\t\tTransformIs3D no\n" ∧
    ∀ j, j ≠ 1 →
      ((["Node A\n", "TransformIs3D yes\n"] : List String).set 1
        "\t\tTransformIs3D no\n")[j]? = (["Node A\n", "TransformIs3D yes\n"] : List String)[j]? :=
  c4_transform_is_3d_patch "A" ["Node A\n", "TransformIs3D yes\n"] 0 1
    ⟨by decide, by decide, by decide⟩
    ⟨by decide, by decide, by decide, fun j h1 h2 => absurd h2 (by omega)⟩

/-- C5: in `import_bilinear_uvs`, when the new surface's node name first
occurs at line index `i ≥ 1`, the line immediately preceding it is replaced
by the exact line `"Node SurfaceBilinear\n"`; every other line is
unchanged. -/
theorem c5_surface_bilinear_patch (node_name : String) (contents : List String)
    (i : Nat)
    (hi : i < contents.length ∧ lineContains (lineAt contents i) node_name = true ∧
      ∀ j < i, lineContains (lineAt contents j) node_name = false)
    (hpos : 1 ≤ i) :
    patchSurfaceBilinear node_name contents
      = some (i, contents.set (i - 1) "Node SurfaceBilinear\n") ∧
    (contents.set (i - 1) "Node SurfaceBilinear\n")[i - 1]?
      = some "Node SurfaceBilinear\n" ∧
    ∀ j, j ≠ i - 1 →
      (contents.set (i - 1) "Node SurfaceBilinear\n")[j]? = contents[j]? := by
  have hfl : find_line node_name contents = some i :=
    (findLine_some_iff node_name contents i).mpr hi
  have hlt : i - 1 < contents.length := by omega
  have hcast : ((i : Int) - 1) = ((i - 1 : Nat) : Int) := by omega
  refine ⟨?_, ?_, ?_⟩
  · simp only [patchSurfaceBilinear, Option.bind_eq_bind, Option.some_bind, hfl]
    rw [hcast, pySet_coe, if_pos hlt]
    rfl
  · exact List.getElem?_set_self hlt
  · intro j hj
    exact List.getElem?_set_ne (fun h => hj h.symm)

/-- Witness for C5 at a concrete setup. -/
theorem c5_surface_bilinear_patch_witness :
    patchSurfaceBilinear "A" ["Node Surface\n", "Name A\n"]
      = some (1, ["Node Surface\n", "Name A\n"].set 0 "Node SurfaceBilinear\n") ∧
    ((["Node Surface\n", "Name A\n"] : List String).set 0
        "Node SurfaceBilinear\n")[0]? = some "Node SurfaceBilinear\n" ∧
    ∀ j, j ≠ 0 →
      ((["Node Surface\n", "Name A\n"] : List String).set 0
        "Node SurfaceBilinear\n")[j]? = (["Node Surface\n", "Name A\n"] : List String)[j]? :=
  c5_surface_bilinear_patch "A" ["Node Surface\n", "Name A\n"] 1
    ⟨by decide, by decide, by decide⟩ (by omega)

/-- C8: the text substitution is deterministic — two runs of either import
operation with the same saved setup text, the same selected files (paths
and contents), the same batch start frame and the same existing node names
write back identical setup text. -/
theorem c8_deterministic_substitution
    (sf1 sf2 : Int) (files1 files2 : List (String × List String))
    (ex1 ex2 : List String) (setup1 setup2 : List String)
    (hsf : sf1 = sf2) (hfiles : files1 = files2) (hex : ex1 = ex2)
    (hsetup : setup1 = setup2) :
    perspectiveGridRun sf1 files1 ex1 setup1
      = perspectiveGridRun sf2 files2 ex2 setup2 ∧
    bilinearUvsRun sf1 files1 ex1 setup1
      = bilinearUvsRun sf2 files2 ex2 setup2 := by
  subst hsf
  subst hfiles
  subst hex
  subst hsetup
  exact ⟨rfl, rfl⟩

/-- Witness for C8 at a concrete input. -/
theorem c8_deterministic_substitution_witness :
    perspectiveGridRun 1 sampleTrackerFiles [] samplePerspectiveSetup
      = perspectiveGridRun 1 sampleTrackerFiles [] samplePerspectiveSetup ∧
    bilinearUvsRun 1 sampleTrackerFiles [] samplePerspectiveSetup
      = bilinearUvsRun 1 sampleTrackerFiles [] samplePerspectiveSetup :=
  c8_deterministic_substitution 1 1 sampleTrackerFiles sampleTrackerFiles
    [] [] samplePerspectiveSetup samplePerspectiveSetup rfl rfl rfl rfl

set_option maxHeartbeats 2000000 in
/-- C6: `import_bilinear_uvs` inserts the four tracker-attachment blocks in
order lower_left (`offset0_0`), upper_left (`offset0_1`), lower_right
(`offset1_0`), upper_right (`offset1_1`), spliced in one past the first
`IsSoftImported` line found after the surface's name line; each block starts
with `"\tAttachement Tracker\n"`, ends with `"AttachementEnd\n"`, carries
`FirstRefFrame` equal to the frame of the corner's first keyframe, and its
`shift/x` and `shift/y` channels hold one key per corner keyframe `(f,x,y)`
with values `first_x - x` and `first_y - y`. -/
theorem c6_tracker_attachments (cs : Corners) (w h : Int) (contents : List String)
    (name_line isl : Nat)
    (hll : cs.lower_left ≠ []) (hul : cs.upper_left ≠ [])
    (hlr : cs.lower_right ≠ []) (hur : cs.upper_right ≠ [])
    (hisl : name_line < isl ∧ isl < contents.length ∧
      lineContains (lineAt contents isl) "IsSoftImported" = true ∧
      ∀ j, name_line < j → j < isl →
        lineContains (lineAt contents j) "IsSoftImported" = false) :
    (∃ tll tul tlr tur,
      add_tracker "offset0_0" cs.lower_left w h = some tll ∧
      add_tracker "offset0_1" cs.upper_left w h = some tul ∧
      add_tracker "offset1_0" cs.lower_right w h = some tlr ∧
      add_tracker "offset1_1" cs.upper_right w h = some tur ∧
      bilinearTrackers cs w h = some (tll ++ tul ++ tlr ++ tur) ∧
      insertTrackerAttachments contents name_line (tll ++ tul ++ tlr ++ tur)
        = some (isl + 1,
            contents.take (isl + 1) ++ (tll ++ tul ++ tlr ++ tur)
              ++ contents.drop (isl + 1)))
    ∧ (∀ (t : String) (c0 : KF) (rest : List KF) (L : List String),
        add_tracker t (c0 :: rest) w h = some L →
          L.head? = some "\tAttachement Tracker\n" ∧
          L.getLast? = some "AttachementEnd\n" ∧
          L[13]? = some ("\tFirstRefFrame " ++ toString c0.1 ++ "\n") ∧
          L = trackerPre t (c0 :: rest) c0 w h
              ++ concatMap (fun p =>
                  ddLines (key_frame pyShowFloat p.1 p.2.1 (c0.2.1 - p.2.2.1)
                    false "linear")) (enumFrom 0 (c0 :: rest))
              ++ trackerShiftYHeader (c0 :: rest).length
              ++ concatMap (fun p =>
                  ddLines (key_frame pyShowFloat p.1 p.2.1 (c0.2.2 - p.2.2.2)
                    false "linear")) (enumFrom 0 (c0 :: rest))
              ++ trackerAttachEnd) := by
  constructor
  · obtain ⟨ll0, llr, hlleq⟩ := List.exists_cons_of_ne_nil hll
    obtain ⟨ul0, ulr, huleq⟩ := List.exists_cons_of_ne_nil hul
    obtain ⟨lr0, lrr, hlreq⟩ := List.exists_cons_of_ne_nil hlr
    obtain ⟨ur0, urr, hureq⟩ := List.exists_cons_of_ne_nil hur
    have hT1 : add_tracker "offset0_0" cs.lower_left w h
        = some (trackerPre "offset0_0" cs.lower_left ll0 w h
            ++ trackerShiftXKeys cs.lower_left ll0
            ++ trackerShiftYHeader cs.lower_left.length
            ++ trackerShiftYKeys cs.lower_left ll0
            ++ trackerAttachEnd) := by
      rw [hlleq]
      rfl
    have hT2 : add_tracker "offset0_1" cs.upper_left w h
        = some (trackerPre "offset0_1" cs.upper_left ul0 w h
            ++ trackerShiftXKeys cs.upper_left ul0
            ++ trackerShiftYHeader cs.upper_left.length
            ++ trackerShiftYKeys cs.upper_left ul0
            ++ trackerAttachEnd) := by
      rw [huleq]
      rfl
    have hT3 : add_tracker "offset1_0" cs.lower_right w h
        = some (trackerPre "offset1_0" cs.lower_right lr0 w h
            ++ trackerShiftXKeys cs.lower_right lr0
            ++ trackerShiftYHeader cs.lower_right.length
            ++ trackerShiftYKeys cs.lower_right lr0
            ++ trackerAttachEnd) := by
      rw [hlreq]
      rfl
    have hT4 : add_tracker "offset1_1" cs.upper_right w h
        = some (trackerPre "offset1_1" cs.upper_right ur0 w h
            ++ trackerShiftXKeys cs.upper_right ur0
            ++ trackerShiftYHeader cs.upper_right.length
            ++ trackerShiftYKeys cs.upper_right ur0
            ++ trackerAttachEnd) := by
      rw [hureq]
      rfl
    have hfa : find_line_after "IsSoftImported" name_line contents = some isl :=
      (findLineAfter_some_iff "IsSoftImported" name_line contents isl).mpr hisl
    refine ⟨_, _, _, _, hT1, hT2, hT3, hT4, ?_, ?_⟩
    · simp only [bilinearTrackers, Option.bind_eq_bind, Option.some_bind,
        hT1, hT2, hT3, hT4]
    · simp only [insertTrackerAttachments, Option.bind_eq_bind, Option.some_bind, hfa]
      rw [pyInsertLoop_eq]
  · intro t c0 rest L hL
    have hbody : add_tracker t (c0 :: rest) w h
        = some (trackerPre t (c0 :: rest) c0 w h
            ++ trackerShiftXKeys (c0 :: rest) c0
            ++ trackerShiftYHeader (c0 :: rest).length
            ++ trackerShiftYKeys (c0 :: rest) c0
            ++ trackerAttachEnd) := rfl
    rw [hbody] at hL
    have hLeq : L = trackerPre t (c0 :: rest) c0 w h
        ++ trackerShiftXKeys (c0 :: rest) c0
        ++ trackerShiftYHeader (c0 :: rest).length
        ++ trackerShiftYKeys (c0 :: rest) c0
        ++ trackerAttachEnd := (Option.some.inj hL).symm
    subst hLeq
    refine ⟨rfl, ?_, rfl, ?_⟩
    · simp [trackerAttachEnd]
    · simp only [trackerShiftXKeys, trackerShiftYKeys]

/-- Witness for C6 at concrete corners and setup. -/
theorem c6_tracker_attachments_witness :
    ∃ tll tul tlr tur,
      add_tracker "offset0_0" [((1 : Int), (2 : ℚ), (1 : ℚ))] 4 4 = some tll ∧
      add_tracker "offset0_1" [((1 : Int), (2 : ℚ), (3 : ℚ))] 4 4 = some tul ∧
      add_tracker "offset1_0" [((1 : Int), (4 : ℚ), (1 : ℚ))] 4 4 = some tlr ∧
      add_tracker "offset1_1" [((1 : Int), (4 : ℚ), (3 : ℚ))] 4 4 = some tur ∧
      bilinearTrackers
          ⟨[((1 : Int), (2 : ℚ), (1 : ℚ))], [((1 : Int), (4 : ℚ), (1 : ℚ))],
            [((1 : Int), (2 : ℚ), (3 : ℚ))], [((1 : Int), (4 : ℚ), (3 : ℚ))]⟩ 4 4
        = some (tll ++ tul ++ tlr ++ tur) ∧
      insertTrackerAttachments sampleSurfaceSetup 1 (tll ++ tul ++ tlr ++ tur)
        = some (5, sampleSurfaceSetup.take 5 ++ (tll ++ tul ++ tlr ++ tur)
            ++ sampleSurfaceSetup.drop 5) :=
  (c6_tracker_attachments
    ⟨[((1 : Int), (2 : ℚ), (1 : ℚ))], [((1 : Int), (4 : ℚ), (1 : ℚ))],
      [((1 : Int), (2 : ℚ), (3 : ℚ))], [((1 : Int), (4 : ℚ), (3 : ℚ))]⟩ 4 4
    sampleSurfaceSetup 1 4
    (by decide) (by decide) (by decide) (by decide)
    ⟨by decide, by decide, by decide, by
      intro j h1 h2
      interval_cases j <;> decide⟩).1

/-- C7: each import operation reads the saved setup file, patches the lines
in memory, writes the result back, and only then asks the host to reload.
Every run produces one of exactly three traces: the full ordered trace
create node, save setup, read file, write the patched text, reload, remove
temp folder — in which the write of the patched text precedes the reload —
or, when an exception ends the run early, the empty trace (validation
raised before the node was created) or the create/save/read prefix (a text
edit raised before anything was written); a reload therefore never occurs
before the patched text has been written. -/
theorem c7_write_before_reload (startFrame : Int)
    (files : List (String × List String)) (existingNodes : List String)
    (setupText : List String) (savePath fileName : String) :
    ((∃ ls, perspectiveGridRun startFrame files existingNodes setupText = some ls ∧
        perspectiveGridTrace startFrame files existingNodes setupText savePath fileName
          = [.createNode "Perspective Grid", .saveNodeSetup savePath,
             .readSetupFile fileName, .writeSetupFile fileName ls,
             .loadNodeSetup savePath, .removeTempFolder])
      ∨ perspectiveGridTrace startFrame files existingNodes setupText savePath fileName
          = []
      ∨ perspectiveGridTrace startFrame files existingNodes setupText savePath fileName
          = [.createNode "Perspective Grid", .saveNodeSetup savePath,
             .readSetupFile fileName])
    ∧ ((∃ ls, bilinearUvsRun startFrame files existingNodes setupText = some ls ∧
        bilinearUvsTrace startFrame files existingNodes setupText savePath fileName
          = [.createNode "Surface", .saveNodeSetup savePath,
             .readSetupFile fileName, .writeSetupFile fileName ls,
             .loadNodeSetup savePath, .removeTempFolder])
      ∨ bilinearUvsTrace startFrame files existingNodes setupText savePath fileName
          = []
      ∨ bilinearUvsTrace startFrame files existingNodes setupText savePath fileName
          = [.createNode "Surface", .saveNodeSetup savePath,
             .readSetupFile fileName]) := by
  constructor
  · rcases hparse : parse_mocha_files startFrame files with err | r
    · right
      left
      simp [perspectiveGridTrace, hparse]
    · rcases hedit : importPerspectiveGridEdit (name_import r.1 existingNodes)
          setupText r.2 with _ | patched
      · right
        right
        simp [perspectiveGridTrace, hparse, hedit]
      · left
        refine ⟨patched, ?_, ?_⟩
        · simp [perspectiveGridRun, hparse, hedit]
        · simp [perspectiveGridTrace, hparse, hedit]
  · rcases hparse : parse_mocha_files startFrame files with err | r
    · right
      left
      simp [bilinearUvsTrace, hparse]
    · rcases hedit : importBilinearEdit (name_import r.1 existingNodes)
          setupText r.2 with _ | patched
      · right
        right
        simp [bilinearUvsTrace, hparse, hedit]
      · left
        refine ⟨patched, ?_, ?_⟩
        · simp [bilinearUvsRun, hparse, hedit]
        · simp [bilinearUvsTrace, hparse, hedit]

end ImportMochaTrack
